import Mathlib

/-
Verification of the normcore-rs admissibility evaluation pipeline.

Shallow embedding conventions:
- Rust `String` / `&str` text is modelled as `List Char` (`Str`).  The Rust code
  scans UTF-8 bytes, but every pattern it scans for is ASCII, and in UTF-8 an
  ASCII byte never occurs inside a multi-byte character, so byte-level scanning
  and character-level scanning coincide.
- `to_lowercase` is modelled with `Char.toLower` (ASCII lowercasing); every
  marker the pipeline compares against is ASCII.
- `f64` fields (knowledge-node confidence, JSON numbers) are modelled as `Rat`;
  the embedded pipeline never branches on a numeric value.
- `BTreeSet`/`BTreeMap` are modelled by lists with explicit ordered insertion,
  or by their lookup function where only lookups are observed.
- Fallible Rust functions returning `Result` are modelled with `Except`.
-/

namespace Normcore

/-- Text as a list of characters. -/
abbrev Str := List Char

/-- Models Rust `str::trim_start` (drop leading whitespace). -/
def trimStart (s : Str) : Str := s.dropWhile Char.isWhitespace

/-- Models Rust `str::trim_end` (drop trailing whitespace). -/
def trimEnd (s : Str) : Str := (s.reverse.dropWhile Char.isWhitespace).reverse

/-- Models Rust `str::trim` (drop whitespace at both ends). -/
def trimStr (s : Str) : Str := trimEnd (trimStart s)

/-- Models Rust `str::to_lowercase` (ASCII range; all compared markers are ASCII). -/
def toLowerStr (s : Str) : Str := s.map Char.toLower

/-- Models Rust `str::contains(needle)` for substring needles. -/
def containsSub (needle : Str) : Str → Bool
  | [] => needle.isEmpty
  | c :: rest => needle.isPrefixOf (c :: rest) || containsSub needle rest

/-- Models Rust `str::find(needle)`: index of the first occurrence. -/
def findSub (needle : Str) : Str → Option Nat
  | [] => if needle.isEmpty then some 0 else none
  | c :: rest =>
    if needle.isPrefixOf (c :: rest) then some 0
    else (findSub needle rest).map (· + 1)

/-- Models Rust `str::rfind(needle)`: index of the last occurrence. -/
def rfindSub (needle : Str) : Str → Option Nat
  | [] => if needle.isEmpty then some 0 else none
  | c :: rest =>
    match rfindSub needle rest with
    | some i => some (i + 1)
    | none => if needle.isPrefixOf (c :: rest) then some 0 else none

/-- Models Rust `str::split_once(needle)`. -/
def splitOnceSub (needle : Str) (text : Str) : Option (Str × Str) :=
  (findSub needle text).map fun i => (text.take i, text.drop (i + needle.length))

/-- Models the repository's `contains_any` helper. -/
def containsAny (text : Str) (needles : List Str) : Bool :=
  needles.any fun n => containsSub n text

/-- Models Rust `str::ends_with(c)` for a single character. -/
def endsWithChar (c : Char) (s : Str) : Bool := s.getLast? == some c

/-- Models Rust `[T]::join(sep)` on string pieces. -/
def joinSep (sep : Str) : List Str → Str
  | [] => []
  | [x] => x
  | x :: y :: rest => x ++ sep ++ joinSep sep (y :: rest)

/-! Citation key extraction, from `src/citations.rs`. -/

/-- Models `is_valid_citation_key`: first char ASCII-alphabetic, the rest ASCII
alphanumeric or `_` or `-`. -/
def is_valid_citation_key (key : Str) : Bool :=
  match key with
  | [] => false
  | first :: rest =>
    first.isAlpha && rest.all fun c => c.isAlphanum || c == '_' || c == '-'

/-- One step of the scanning loop of `extract_citation_keys`: on a literal
marker start `[@`, the candidate is the text up to the next `]` and the scan
resumes right after the `]` (an invalid candidate yields no key but the scan
continues); with no closing `]`, or at the end of the text, the scan ends
(`none`); on any other character the scan moves one character on. -/
def citation_scan_step (cs : List Char) : Option (Option Str × List Char) :=
  match cs with
  | '[' :: '@' :: rest =>
    (match rest.dropWhile (fun c => c != ']') with
     | ']' :: tail =>
       let cand := rest.takeWhile (fun c => c != ']')
       some (if is_valid_citation_key cand then some cand else none, tail)
     | _ => none)
  | _ :: rest => some (none, rest)
  | [] => none

/-- The scanning loop of `extract_citation_keys`: each step may produce a
valid candidate, which is appended when unseen.  `keys` accumulates the
output, which also serves as the seen-set (only pushed keys are recorded as
seen, as in the source).  The fuel argument makes the jump past `]`
structurally recursive; one unit per character is always enough, so
`extract_citation_keys` below is fuel-independent. -/
def extract_citation_keys_go : Nat → List Char → List Str → List Str
  | 0, _, keys => keys
  | fuel + 1, cs, keys =>
    match citation_scan_step cs with
    | none => keys
    | some (none, tail) => extract_citation_keys_go fuel tail keys
    | some (some cand, tail) =>
      if !(keys.contains cand) then extract_citation_keys_go fuel tail (keys ++ [cand])
      else extract_citation_keys_go fuel tail keys

/-- Models `extract_citation_keys(text)`. -/
def extract_citation_keys (text : Str) : List Str :=
  if text.isEmpty then [] else extract_citation_keys_go (text.length + 1) text []

/-- Specification helper: every valid candidate in scan order, without
deduplication (the same scan as `extract_citation_keys_go`, keeping
duplicates). -/
def extract_citation_candidates : Nat → List Char → List Str
  | 0, _ => []
  | fuel + 1, cs =>
    match citation_scan_step cs with
    | none => []
    | some (none, tail) => extract_citation_candidates fuel tail
    | some (some cand, tail) => cand :: extract_citation_candidates fuel tail

/-- Specification helper: keep the first occurrence of each key not already in
`seen`, dropping later repeats. -/
def dedup_first_against : List Str → List Str → List Str
  | [], _ => []
  | k :: ks, seen =>
    if seen.contains k then dedup_first_against ks seen
    else k :: dedup_first_against ks (seen ++ [k])

/-! Data model, from `src/models.rs` and `src/normative/models.rs`. -/

/-- Statement modality (`normative/models.rs`). -/
inductive Modality
  | assertive
  | conditional
  | refusal
  | descriptive
deriving DecidableEq, Repr

/-- Models `Modality::as_str`. -/
def Modality.as_str : Modality → Str
  | .assertive => "assertive".toList
  | .conditional => "conditional".toList
  | .refusal => "refusal".toList
  | .descriptive => "descriptive".toList

/-- Rank of a modality in the derived `Ord` (declaration order), which fixes
`BTreeSet<Modality>` iteration order. -/
def Modality.rank : Modality → Nat
  | .assertive => 0
  | .conditional => 1
  | .refusal => 2
  | .descriptive => 3

/-- Knowledge-node source (`normative/models.rs`). -/
inductive Source
  | observed
  | explicit
  | inferred
  | repeated
deriving DecidableEq, Repr

/-- Knowledge-node status (`normative/models.rs`). -/
inductive Status
  | hypothesis
  | candidate
  | confirmed
deriving DecidableEq, Repr

/-- Knowledge-node scope (`normative/models.rs`). -/
inductive Scope
  | factual
  | contextual
deriving DecidableEq, Repr

/-- Per-statement evaluation status (`normative/models.rs`). -/
inductive EvaluationStatus
  | wellFormed
  | illFormed
  | unsupported
  | underdetermined
  | conditionallyAcceptable
  | violatesNorm
  | acceptable
  | noNormativeContent
deriving DecidableEq, Repr

/-- Externally visible judgment status (`models.rs`). -/
inductive AdmissibilityStatus
  | acceptable
  | conditionallyAcceptable
  | violatesNorm
  | unsupported
  | illFormed
  | underdetermined
  | noNormativeContent
deriving DecidableEq, Repr

/-- Link role (`models.rs`). -/
inductive LinkRole
  | supports
  | disambiguates
  | contextualizes
deriving DecidableEq, Repr

/-- Link creator kind (`models.rs`). -/
inductive CreatorType
  | human
  | toolObserver
  | agentDeclaration
  | upstreamPipeline
deriving DecidableEq, Repr

/-- Evidence kind (`models.rs`). -/
inductive EvidenceType
  | observation
  | explicit
  | structural
  | validation
deriving DecidableEq, Repr

/-- One unit of agent output under evaluation (`normative/models.rs`). -/
structure Statement where
  id : Str
  subject : Str
  predicate : Str
  raw_text : Str
  modality : Option Modality
  conditions : List Str
deriving DecidableEq, Repr

/-- Internal evidentiary record (`normative/models.rs`).  The `f64` confidence
is modelled as `Rat`; the pipeline never branches on its value. -/
structure KnowledgeNode where
  id : Str
  source : Source
  status : Status
  confidence : Rat
  scope : Scope
  strength : Str
  semantic_id : Option Str
deriving DecidableEq, Repr

/-- The knowledge nodes relevant to one statement (`normative/models.rs`). -/
structure GroundSet where
  nodes : List KnowledgeNode
deriving DecidableEq, Repr

/-- Models `GroundSet::is_empty`. -/
def GroundSet.is_empty (gs : GroundSet) : Bool := gs.nodes.isEmpty

/-- Models `GroundSet::has_factual`. -/
def GroundSet.has_factual (gs : GroundSet) : Bool :=
  gs.nodes.any fun k => k.scope == Scope.factual

/-- Models `GroundSet::has_scope`. -/
def GroundSet.has_scope (gs : GroundSet) (scope : Scope) : Bool :=
  gs.nodes.any fun k => k.scope == scope

/-- Loop of `GroundSet::get_scope_strength`: `found_any` records whether a node
of the scope was seen; the first "strong" node short-circuits. -/
def get_scope_strength_go (scope : Scope) : List KnowledgeNode → Bool → Option Str
  | [], found_any => if found_any then some ("weak".toList) else none
  | n :: rest, found_any =>
    if n.scope = scope then
      (if n.strength = "strong".toList then some ("strong".toList)
       else get_scope_strength_go scope rest true)
    else get_scope_strength_go scope rest found_any

/-- Models `GroundSet::get_scope_strength`. -/
def GroundSet.get_scope_strength (gs : GroundSet) (scope : Scope) : Option Str :=
  get_scope_strength_go scope gs.nodes false

/-- Models `GroundSet::has_strong_in_scope`. -/
def GroundSet.has_strong_in_scope (gs : GroundSet) (scope : Scope) : Bool :=
  gs.nodes.any fun k => k.scope == scope && k.strength == "strong".toList

/-- Models `GroundSet::resolve_ground`: lookup by id first, then by semantic id. -/
def GroundSet.resolve_ground (gs : GroundSet) (ground_id : Str) : Option KnowledgeNode :=
  match gs.nodes.find? (fun n => n.id == ground_id) with
  | some n => some n
  | none => gs.nodes.find? fun n => n.semantic_id == some ground_id

/-- The set of modalities a statement may use (`normative/models.rs`); the
`BTreeSet<Modality>` is modelled as a duplicate-free list ordered by
`Modality.rank`. -/
structure License where
  permitted_modalities : List Modality
deriving DecidableEq, Repr

/-- Models `License::permits`. -/
def License.permits (l : License) (m : Modality) : Bool :=
  l.permitted_modalities.contains m

/-- Ordered set insertion for the `BTreeSet<Modality>` model. -/
def modalitySetInsert (m : Modality) : List Modality → List Modality
  | [] => [m]
  | x :: rest =>
    if m.rank < x.rank then m :: x :: rest
    else if m = x then x :: rest
    else x :: modalitySetInsert m rest

/-- Models `license_from` in `normative/license_deriver.rs`. -/
def license_from (ms : List Modality) : License :=
  { permitted_modalities := ms.foldl (fun s m => modalitySetInsert m s) [] }

/-- Citation link provenance (`models.rs`). -/
structure Provenance where
  creator : CreatorType
  evidence_type : EvidenceType
  evidence_content : Option Str
  signature : Option Str
deriving DecidableEq, Repr

/-- A citation relationship from a statement to a ground (`models.rs`). -/
structure StatementGroundLink where
  statement_id : Str
  ground_id : Str
  role : LinkRole
  provenance : Provenance
deriving DecidableEq, Repr

/-- A set of statement-ground links (`models.rs`). -/
structure LinkSet where
  links : List StatementGroundLink
deriving DecidableEq, Repr

/-- External evidence reference (`models.rs`). -/
structure Ground where
  citation_key : Str
  ground_id : Str
  role : LinkRole
  creator : CreatorType
  evidence_type : EvidenceType
  evidence_content : Option Str
  signature : Option Str
deriving DecidableEq, Repr

/-! License deriver, from `src/normative/license_deriver.rs`. -/

/-- Models `LicenseDeriver::derive_conservative`. -/
def LicenseDeriver.derive_conservative (ground_set : GroundSet) : License :=
  if ground_set.is_empty then license_from [Modality.refusal]
  else
    match ground_set.get_scope_strength Scope.factual with
    | none => license_from [Modality.refusal]
    | some s =>
      if s = "strong".toList then
        license_from [Modality.assertive, Modality.conditional, Modality.refusal]
      else license_from [Modality.conditional, Modality.refusal]

/-- Models `LicenseDeriver::derive_with_links`. -/
def LicenseDeriver.derive_with_links (ground_set : GroundSet) (links : LinkSet) : License :=
  let support_links := links.links.filter fun link => link.role == LinkRole.supports
  if support_links.isEmpty then license_from [Modality.refusal]
  else
    let used := support_links.filterMap fun link => ground_set.resolve_ground link.ground_id
    if used.isEmpty then license_from [Modality.refusal]
    else
      let factual := used.filter fun g => g.scope == Scope.factual
      if factual.isEmpty then license_from [Modality.refusal]
      else if factual.any (fun g => g.strength == "strong".toList) then
        license_from [Modality.assertive, Modality.conditional, Modality.refusal]
      else license_from [Modality.conditional, Modality.refusal]

/-- Models `LicenseDeriver::derive`. -/
def LicenseDeriver.derive (ground_set : GroundSet) (links : Option LinkSet) : License :=
  match links with
  | some link_set => LicenseDeriver.derive_with_links ground_set link_set
  | none => LicenseDeriver.derive_conservative ground_set

/-! Axiom checker, from `src/normative/axiom_checker.rs`. -/

/-- Per-statement axiom check outcome (`normative/models.rs`). -/
structure AxiomCheckResult where
  status : EvaluationStatus
  violated_axiom : Option Str
  explanation : Str
deriving DecidableEq, Repr

/-- Rust `Debug` escaping of one character inside a quoted string. -/
def debugEscapeChar (c : Char) : Str :=
  if c = '"' then ['\\', '"']
  else if c = '\\' then ['\\', '\\']
  else if c = '\n' then ['\\', 'n']
  else if c = '\r' then ['\\', 'r']
  else if c = '\t' then ['\\', 't']
  else [c]

/-- Rust `Debug` rendering of one string. -/
def debugQuoteStr (s : Str) : Str :=
  '"' :: (s.map debugEscapeChar).flatten ++ ['"']

/-- Rust `Debug` rendering of a `Vec<String>`. -/
def debugStrList (xs : List Str) : Str :=
  '[' :: joinSep (", ".toList) (xs.map debugQuoteStr) ++ [']']

/-- Models `AxiomChecker::is_normative`. -/
def AxiomChecker.is_normative (statement : Statement) : Bool :=
  match statement.modality with
  | some Modality.assertive | some Modality.conditional => true
  | _ => false

/-- Models `AxiomChecker::check`: the ordered rule set, first match wins. -/
def AxiomChecker.check (statement : Statement) (license : License) (ground_set : GroundSet)
    (_task_goal : Str) : AxiomCheckResult :=
  if statement.modality == some Modality.refusal then
    { status := EvaluationStatus.acceptable, violated_axiom := none,
      explanation := "Explicit refusal is always admissible (A6)".toList }
  else if statement.modality == some Modality.assertive
      && !(license.permits Modality.assertive) then
    { status := EvaluationStatus.violatesNorm, violated_axiom := some ("A5".toList),
      explanation :=
        "Assertive statement without sufficient grounding (categoricity ban)".toList }
  else if statement.modality == some Modality.conditional then
    (if license.permits Modality.assertive then
      { status := EvaluationStatus.conditionallyAcceptable, violated_axiom := none,
        explanation :=
          "Conditional form chosen by agent (ASSERTIVE also permitted by grounding)".toList }
    else if !statement.conditions.isEmpty then
      { status := EvaluationStatus.conditionallyAcceptable, violated_axiom := none,
        explanation :=
          "Conditional statement with declared conditions: ".toList
            ++ debugStrList statement.conditions }
    else
      { status := EvaluationStatus.unsupported, violated_axiom := some ("A7".toList),
        explanation := "Conditional statement without declared conditions".toList })
  else if AxiomChecker.is_normative statement && ground_set.is_empty then
    { status := EvaluationStatus.unsupported, violated_axiom := some ("A4".toList),
      explanation := "Normative claim without grounding".toList }
  else if statement.modality == some Modality.descriptive then
    (if ground_set.has_factual then
      { status := EvaluationStatus.acceptable, violated_axiom := none,
        explanation := "Descriptive statement grounded in factual knowledge".toList }
    else
      { status := EvaluationStatus.unsupported, violated_axiom := some ("A4".toList),
        explanation := "Descriptive statement without factual grounding".toList })
  else
    match statement.modality with
    | some modality =>
      if license.permits modality then
        { status := EvaluationStatus.acceptable, violated_axiom := none,
          explanation :=
            "Statement modality (".toList ++ modality.as_str
              ++ ") permitted by license".toList }
      else
        { status := EvaluationStatus.underdetermined, violated_axiom := none,
          explanation :=
            "Cannot determine status (modality=".toList ++ modality.as_str
              ++ ", license=".toList
              ++ debugStrList (license.permitted_modalities.map Modality.as_str)
              ++ ")".toList }
    | none =>
      { status := EvaluationStatus.underdetermined, violated_axiom := none,
        explanation := "Cannot determine status (modality=None)".toList }

/-! Modality detector, from `src/normative/modality_detector.rs`. -/

/-- Models `ModalityDetector::is_refusal`. -/
def ModalityDetector.is_refusal (text : Str) : Bool :=
  containsAny text
    ["cannot determine".toList, "cannot decide".toList, "cannot choose".toList,
     "need more".toList, "require more".toList, "insufficient".toList,
     "please provide".toList, "please clarify".toList, "i don't know".toList,
     "i do not know".toList, "hard to say".toList, "hard to determine".toList,
     "i would not".toList, "i won't".toList]

/-- Models `ModalityDetector::is_conditional`. -/
def ModalityDetector.is_conditional (text : Str) : Bool :=
  containsAny text
    ["if ".toList, "unless ".toList, "assuming ".toList, "given that".toList,
     "provided ".toList, "depends on".toList, " might ".toList, " could ".toList]

/-- Models `ModalityDetector::is_goal_conditional`. -/
def ModalityDetector.is_goal_conditional (text : Str) : Bool :=
  List.isPrefixOf ("if your goal is".toList) text
    || List.isPrefixOf ("if you want".toList) text
    || List.isPrefixOf ("assuming you want".toList) text
    || List.isPrefixOf ("if you're optimizing".toList) text
    || List.isPrefixOf ("if you are optimizing".toList) text
    || List.isPrefixOf ("if you're aiming".toList) text

/-- Models `ModalityDetector::is_personalization_conditional`. -/
def ModalityDetector.is_personalization_conditional (text : Str) : Bool :=
  containsAny text
    ["for you".toList, "given your".toList, "based on your".toList,
     "according to your".toList, "with your preferences".toList,
     "with your constraints".toList]

/-- Models `ModalityDetector::is_descriptive`. -/
def ModalityDetector.is_descriptive (text : Str) : Bool :=
  containsAny text
    ["blocks".toList, "is blocked by".toList, "depends on".toList,
     "has status".toList, "due date is".toList, "is blocked".toList]

/-- Models `ModalityDetector::is_normative` (normative-verb markers). -/
def ModalityDetector.is_normative (text : Str) : Bool :=
  containsAny text
    ["should".toList, "must".toList, "need to".toList, "needs to".toList,
     "recommend".toList, "suggest".toList, "advise".toList]

/-- Models `ModalityDetector::has_recommendation`. -/
def ModalityDetector.has_recommendation (text : Str) : Bool :=
  containsAny text
    [" is better".toList, " are better".toList, "should be prioritiz".toList,
     "recommend ".toList, "suggest you".toList, "best choice".toList,
     "best option".toList, "prioritize ".toList, " first".toList]

/-- Models `ModalityDetector::extract_core_assertion`: first paragraph split on
a blank line, else the first sentence ended by a dot and a space, else the
first line, else the first 500 characters (each trimmed). -/
def ModalityDetector.extract_core_assertion (text : Str) : Str :=
  match splitOnceSub ("\n\n".toList) text with
  | some (core, _) => trimStr core
  | none =>
    match findSub (". ".toList) text with
    | some idx => trimStr (text.take (idx + 1))
    | none =>
      match splitOnceSub ("\n".toList) text with
      | some (core, _) => trimStr core
      | none => trimStr (text.take 500)

/-- Models `ModalityDetector::detect`: classification by priority. -/
def ModalityDetector.detect (text : Str) : Modality :=
  let text_lower := toLowerStr text
  let core := ModalityDetector.extract_core_assertion text_lower
  if ModalityDetector.is_refusal core then Modality.refusal
  else if ModalityDetector.is_goal_conditional core then Modality.conditional
  else if ModalityDetector.is_personalization_conditional core then Modality.conditional
  else if ModalityDetector.has_recommendation core then Modality.assertive
  else if ModalityDetector.is_conditional core then Modality.conditional
  else if ModalityDetector.is_descriptive core && !(ModalityDetector.is_normative core) then
    Modality.descriptive
  else Modality.assertive

/-- Models `extract_after_keyword`: the clause after the first occurrence of
the keyword, up to the next comma, dot or semicolon. -/
def extract_after_keyword (text keyword : Str) : Option Str :=
  match findSub keyword text with
  | none => none
  | some idx =>
    let tail := text.drop (idx + keyword.length)
    let stop := (tail.findIdx? fun c => c == ',' || c == '.' || c == ';').getD tail.length
    let clause := trimStr (tail.take stop)
    if clause.isEmpty then none else some clause

/-- Models `ModalityDetector::extract_conditions`: each keyword anchor
contributes at most one clause, in the source's fixed order, with the
`["unspecified"]` fallback when none matches. -/
def ModalityDetector.extract_conditions (text : Str) : List Str :=
  let lower := toLowerStr text
  let out :=
    (match extract_after_keyword lower ("if ".toList) with
      | some c => [c] | none => [])
    ++ (match extract_after_keyword lower ("unless ".toList) with
      | some c => ["NOT ".toList ++ c] | none => [])
    ++ (match extract_after_keyword lower ("assuming ".toList) with
      | some c => [c] | none => [])
    ++ (match extract_after_keyword lower ("given that ".toList) with
      | some c => [c] | none => [])
    ++ (match extract_after_keyword lower ("given your ".toList) with
      | some c => ["given your ".toList ++ c] | none => [])
    ++ (match extract_after_keyword lower ("based on your ".toList) with
      | some c => ["based on your ".toList ++ c] | none => [])
    ++ (if containsSub ("for you".toList) lower then ["for you".toList] else [])
  if out.isEmpty then ["unspecified".toList] else out

/-- Models `ModalityDetector::detect_with_conditions` (the in-place mutation is
modelled by returning the updated statement). -/
def ModalityDetector.detect_with_conditions (statement : Statement) : Statement :=
  let modality := ModalityDetector.detect statement.raw_text
  let statement := { statement with modality := some modality }
  if modality = Modality.conditional then
    { statement with conditions := ModalityDetector.extract_conditions statement.raw_text }
  else statement

/-! Statement extractor, from `src/normative/extractor.rs`. -/

/-- Loop of `split_sentences`: the buffer accumulates characters and is flushed
(trimmed, dropped when empty) at each `.`, `!` or `?`, delimiter kept. -/
def split_sentences_go : Str → Str → List Str
  | [], buf =>
    let tail := trimStr buf
    if tail.isEmpty then [] else [tail]
  | c :: rest, buf =>
    if c == '.' || c == '!' || c == '?' then
      let t := trimStr (buf ++ [c])
      (if t.isEmpty then split_sentences_go rest [] else t :: split_sentences_go rest [])
    else split_sentences_go rest (buf ++ [c])

/-- Models `split_sentences` in `extractor.rs`. -/
def split_sentences (text : Str) : List Str := split_sentences_go text []

/-- Models Rust `str::trim_end_matches(&[chars][..])`. -/
def trimEndMatchesSet (set : List Char) (s : Str) : Str :=
  (s.reverse.dropWhile fun c => set.contains c).reverse

/-- The trailing protocol-offer markers of `strip_protocol_suffix`, in source
order. -/
def protocol_suffix_markers : List Str :=
  ["i can help".toList, "let me know if".toList, "feel free to ask".toList,
   "how can i help".toList, "would you like".toList]

/-- One pass of the `strip_protocol_suffix` loop: the first marker (in source
order) found by `rfind` in the lowercased text cuts the text there; `none`
when no marker changed anything. -/
def strip_protocol_suffix_step (out : Str) : Option Str :=
  let lower := toLowerStr out
  protocol_suffix_markers.findSome? fun marker =>
    (rfindSub marker lower).map fun idx =>
      trimEndMatchesSet ['.', ',', ';'] (trimStr (out.take idx))

/-- The bounded (5-pass) loop of `strip_protocol_suffix`. -/
def strip_protocol_suffix_loop : Nat → Str → Str
  | 0, out => out
  | n + 1, out =>
    match strip_protocol_suffix_step out with
    | some next => strip_protocol_suffix_loop n next
    | none => out

/-- Models `StatementExtractor::strip_protocol_suffix`. -/
def StatementExtractor.strip_protocol_suffix (text : Str) : Str :=
  strip_protocol_suffix_loop 5 (trimStr text)

/-- The `has_any_normative` markers of `strip_protocol_prefix_sentences`. -/
def prefix_any_normative_markers : List Str :=
  ["should".toList, "must".toList, "recommend".toList, "prioritize".toList,
   "blocks".toList, "is blocked".toList, "depends on".toList, "if ".toList,
   "for you".toList, "given your".toList, "based on your".toList,
   "i would not".toList, "cannot determine".toList]

/-- The `has_strong_normative` markers of `strip_protocol_prefix_sentences`. -/
def prefix_strong_normative_markers : List Str :=
  ["should".toList, "must".toList, "recommend".toList, "prioritize".toList,
   "blocks".toList, "depends on".toList, "if ".toList]

/-- The `looks_protocol` markers of `strip_protocol_prefix_sentences`. -/
def prefix_protocol_markers : List Str :=
  ["i can".toList, "how can i".toList, "what can i".toList, "thanks for".toList,
   "let me know".toList, "feel free".toList, "hope you".toList]

/-- The sentence scan of `strip_protocol_prefix_sentences`: protocol-looking
sentences without a strong normative marker are dropped; the first sentence
with any normative marker keeps itself and everything after it. -/
def keep_from_sentences : List Str → List Str
  | [] => []
  | sentence :: rest =>
    let lower := toLowerStr sentence
    let has_any_normative := containsAny lower prefix_any_normative_markers
    let has_strong_normative := containsAny lower prefix_strong_normative_markers
    let looks_protocol := containsAny lower prefix_protocol_markers
      || (endsWithChar '?' (trimStr lower) && !has_any_normative)
    if looks_protocol && !has_strong_normative then keep_from_sentences rest
    else if has_any_normative then sentence :: rest
    else sentence :: keep_from_sentences rest

/-- Models `StatementExtractor::strip_protocol_prefix_sentences`. -/
def StatementExtractor.strip_protocol_prefix_sentences (text : Str) : Str :=
  let sentences := split_sentences text
  if sentences.isEmpty then text
  else trimStr (joinSep (" ".toList) (keep_from_sentences sentences))

/-- The normative/conditional/personalization vocabulary gate at the top of
`strip_greeting`. -/
def greeting_gate_markers : List Str :=
  ["should".toList, "must".toList, "recommend".toList, "prioritize".toList,
   "block".toList, "depends on".toList, "is blocked".toList, "is better".toList,
   "better for you".toList, "if ".toList, "cannot determine".toList,
   "not enough information".toList, "i would not".toList, "i won't".toList,
   "for you".toList, "given your".toList, "based on your".toList]

/-- The greeting prefix catalogue of `strip_greeting`, in source order. -/
def greeting_prefixes : List Str :=
  ["hello".toList, "hi".toList, "hey".toList, "greetings".toList,
   "good morning".toList, "good afternoon".toList, "good evening".toList,
   "thanks for asking".toList, "i'm doing well".toList, "i am doing well".toList,
   "i'm ready".toList, "i am ready".toList, "i'm here".toList,
   "i am here".toList, "hope you're doing well".toList,
   "hope you are doing well".toList]

/-- Models `StatementExtractor::strip_greeting`. -/
def StatementExtractor.strip_greeting (text : Str) : Str :=
  let cleaned := trimStr text
  let lower := toLowerStr cleaned
  if !(containsAny lower greeting_gate_markers) then []
  else
    let cleaned := StatementExtractor.strip_protocol_suffix cleaned
    let cleaned := StatementExtractor.strip_protocol_prefix_sentences cleaned
    let lowered := toLowerStr cleaned
    let cleaned :=
      match greeting_prefixes.find? (fun p => List.isPrefixOf p lowered) with
      | some p =>
        (cleaned.drop p.length).dropWhile fun c =>
          c.isWhitespace || [',', '.', '!', '-', '—'].contains c
      | none => cleaned
    if endsWithChar '?' (trimEnd cleaned)
        && !(containsAny (toLowerStr cleaned)
          ["should".toList, "must".toList, "recommend".toList, "if ".toList]) then
      []
    else trimStr cleaned

/-- Models `StatementExtractor::extract`: zero statements for protocol-only
text, else exactly one with fixed placeholder subject and predicate. -/
def StatementExtractor.extract (text : Str) : List Statement :=
  if (trimStr text).isEmpty then []
  else
    let cleaned := StatementExtractor.strip_greeting text
    if (trimStr cleaned).isEmpty then []
    else
      [{ id := "final_response".toList, subject := "agent".toList,
         predicate := "participation".toList, raw_text := cleaned,
         modality := none, conditions := [] }]

/-! Ground set matcher, from `src/normative/ground_matcher.rs`. -/

/-- Models `GroundSetMatcher::is_relevant`. -/
def GroundSetMatcher.is_relevant (statement : Statement) (node : KnowledgeNode) : Bool :=
  match statement.modality with
  | some Modality.descriptive => node.scope == Scope.factual
  | some Modality.assertive | some Modality.conditional =>
    node.scope == Scope.factual || node.scope == Scope.contextual
  | some Modality.refusal => false
  | none => false

/-- Models `GroundSetMatcher::match_nodes`. -/
def GroundSetMatcher.match_nodes (statement : Statement)
    (knowledge_nodes : List KnowledgeNode) : GroundSet :=
  { nodes := knowledge_nodes.filter fun k => GroundSetMatcher.is_relevant statement k }

/-! JSON value model and parser, from `src/json.rs`.  The byte-level
recursive-descent parser is modelled at character level (they coincide on
ASCII input, and every structural token is ASCII).  `f64` numbers are
modelled exactly as `Rat`; the embedded pipeline never observes a numeric
value, only whether number parsing succeeds. -/

/-- Lexicographic order on text, by code point (equal to Rust's byte order on
UTF-8 strings). -/
def strLtB : Str → Str → Bool
  | [], [] => false
  | [], _ :: _ => true
  | _ :: _, [] => false
  | a :: xs, b :: ys =>
    if a.val < b.val then true
    else if b.val < a.val then false
    else strLtB xs ys

/-- Sorted-insert with overwrite: the `BTreeMap::insert` model on an assoc
list kept sorted by key. -/
def btreeInsert {α : Type} (k : Str) (v : α) : List (Str × α) → List (Str × α)
  | [] => [(k, v)]
  | (k2, v2) :: rest =>
    if strLtB k k2 then (k, v) :: (k2, v2) :: rest
    else if k = k2 then (k, v) :: rest
    else (k2, v2) :: btreeInsert k v rest

/-- The `BTreeMap::get` model. -/
def btreeGet {α : Type} (m : List (Str × α)) (k : Str) : Option α :=
  (m.find? fun kv => kv.1 == k).map fun kv => kv.2

/-- Sorted-set insert: the `BTreeSet<String>::insert` model. -/
def strSetInsert (s : Str) : List Str → List Str
  | [] => [s]
  | x :: rest =>
    if strLtB s x then s :: x :: rest
    else if s = x then x :: rest
    else x :: strSetInsert s rest

/-- The JSON-like tagged union (`json.rs`); objects are assoc lists kept
sorted by key, mirroring `BTreeMap` iteration order. -/
inductive JsonValue
  | null
  | bool (b : Bool)
  | number (q : Rat)
  | string (s : Str)
  | array (items : List JsonValue)
  | object (fields : List (Str × JsonValue))
deriving Repr

/-- Models `JsonValue::as_str`. -/
def JsonValue.as_str : JsonValue → Option Str
  | .string s => some s
  | _ => none

/-- Models `JsonValue::as_array`. -/
def JsonValue.as_array : JsonValue → Option (List JsonValue)
  | .array v => some v
  | _ => none

/-- Models `JsonValue::as_object`. -/
def JsonValue.as_object : JsonValue → Option (List (Str × JsonValue))
  | .object m => some m
  | _ => none

/-- Models `JsonValue::get`. -/
def JsonValue.get (v : JsonValue) (key : Str) : Option JsonValue :=
  v.as_object.bind fun m => btreeGet m key

/-- Parse error (`json.rs`). -/
structure JsonError where
  message : Str
deriving Repr

/-- Models `Parser::skip_ws` (space, newline, carriage return, tab). -/
def jsonSkipWs (s : Str) : Str :=
  s.dropWhile fun c => c == ' ' || c == '\n' || c == '\r' || c == '\t'

/-- Hex digit value, as in `Parser::parse_hex4` (byte ranges `0-9`, `a-f`,
`A-F`, written with their code points: 48..57, 97..102, 65..70). -/
def hexDigitVal (c : Char) : Option Nat :=
  let n := c.toNat
  if 48 ≤ n ∧ n ≤ 57 then some (n - 48)
  else if 97 ≤ n ∧ n ≤ 102 then some (n - 87)
  else if 65 ≤ n ∧ n ≤ 70 then some (n - 55)
  else none

/-- Models `Parser::parse_string` after the opening quote: the string body up
to the closing quote, with the fixed escape table and `\u` escapes. -/
def parse_string_body : Str → Except JsonError (Str × Str)
  | [] => .error { message := "unterminated string".toList }
  | c :: rest =>
    if c = '"' then .ok ([], rest)
    else if c = '\\' then
      match rest with
      | [] => .error { message := "incomplete escape".toList }
      | e :: rest2 =>
        if e = 'u' then
          match rest2 with
          | h1 :: h2 :: h3 :: h4 :: rem =>
            match hexDigitVal h1, hexDigitVal h2, hexDigitVal h3, hexDigitVal h4 with
            | some v1, some v2, some v3, some v4 =>
              let code := ((v1 * 16 + v2) * 16 + v3) * 16 + v4
              if Nat.isValidChar code then
                (parse_string_body rem).map fun sr => (Char.ofNat code :: sr.1, sr.2)
              else .error { message := "invalid unicode escape".toList }
            | _, _, _, _ => .error { message := "invalid hex in unicode escape".toList }
          | _ => .error { message := "truncated unicode escape".toList }
        else
          match
            (if e = '"' then some '"'
             else if e = '\\' then some '\\'
             else if e = '/' then some '/'
             else if e = 'b' then some (Char.ofNat 8)
             else if e = 'f' then some (Char.ofNat 12)
             else if e = 'n' then some '\n'
             else if e = 'r' then some '\r'
             else if e = 't' then some '\t'
             else none) with
          | some ch => (parse_string_body rest2).map fun sr => (ch :: sr.1, sr.2)
          | none => .error { message := "invalid escape".toList }
    else if c.toNat < 32 || c.toNat = 127 then
      .error { message := "control character in string".toList }
    else (parse_string_body rest).map fun sr => (c :: sr.1, sr.2)

/-- Models `Parser::parse_string` including the opening-quote `expect`. -/
def parse_string_full : Str → Except JsonError (Str × Str)
  | '"' :: rest => parse_string_body rest
  | _ => .error { message := "unexpected token".toList }

/-- Numeric value of a digit run. -/
def natOfDigits (ds : Str) : Nat :=
  ds.foldl (fun acc c => acc * 10 + (c.toNat - '0'.toNat)) 0

/-- Models `Parser::parse_number`: consume the number token per the grammar
(sign, digits, optional fraction, optional exponent), then convert; the
`f64` conversion is modelled exactly over `Rat`, accepting precisely when
Rust's `f64::from_str` accepts a token of this shape (at least one mantissa
digit; exponent digits when an exponent marker is present). -/
def parse_number (s : Str) : Except JsonError (Rat × Str) :=
  let (neg, s1) := match s with
    | '-' :: r => (true, r)
    | _ => (false, s)
  let int_digits := s1.takeWhile Char.isDigit
  let s2 := s1.drop int_digits.length
  let (has_frac, frac_digits, s3) := match s2 with
    | '.' :: r => (true, r.takeWhile Char.isDigit, r.drop (r.takeWhile Char.isDigit).length)
    | _ => (false, [], s2)
  let (has_exp, exp_neg, exp_digits, s4) := match s3 with
    | 'e' :: r | 'E' :: r =>
      (match r with
       | '+' :: r2 => (true, false, r2.takeWhile Char.isDigit, r2.drop (r2.takeWhile Char.isDigit).length)
       | '-' :: r2 => (true, true, r2.takeWhile Char.isDigit, r2.drop (r2.takeWhile Char.isDigit).length)
       | _ => (true, false, r.takeWhile Char.isDigit, r.drop (r.takeWhile Char.isDigit).length))
    | _ => (false, false, [], s3)
  let _ := has_frac
  if (int_digits.isEmpty && frac_digits.isEmpty) || (has_exp && exp_digits.isEmpty) then
    .error { message := "invalid number literal".toList }
  else
    let mant : Rat := (natOfDigits (int_digits ++ frac_digits) : Rat) / ((10 : Rat) ^ frac_digits.length)
    let ee : Int := if exp_neg then -(natOfDigits exp_digits : Int) else (natOfDigits exp_digits : Int)
    let v : Rat := (if neg then -mant else mant) * (10 : Rat) ^ ee
    .ok (v, s4)

mutual

/-- Models `Parser::parse_value`, with explicit fuel in place of the implicit
recursion depth; the fuel passed by `parse_json` always suffices, so the
fuel-exhaustion error is unreachable on real input. -/
def parseValueFuel : Nat → Str → Except JsonError (JsonValue × Str)
  | 0, _ => .error { message := "fuel exhausted".toList }
  | fuel + 1, s =>
    let s := jsonSkipWs s
    match s with
    | [] => .error { message := "unexpected end of JSON".toList }
    | c :: rest =>
      if c = 'n' then
        (if List.isPrefixOf ("null".toList) (c :: rest) then
          .ok (JsonValue.null, (c :: rest).drop 4)
        else .error { message := "unexpected token".toList })
      else if c = 't' || c = 'f' then
        (if List.isPrefixOf ("true".toList) (c :: rest) then
          .ok (JsonValue.bool true, (c :: rest).drop 4)
        else if List.isPrefixOf ("false".toList) (c :: rest) then
          .ok (JsonValue.bool false, (c :: rest).drop 5)
        else .error { message := "invalid boolean".toList })
      else if c = '"' then
        (parse_string_body rest).map fun sr => (JsonValue.string sr.1, sr.2)
      else if c = '[' then
        (let inner := jsonSkipWs rest
         match inner with
         | ']' :: after => .ok (JsonValue.array [], after)
         | _ => parseArrayItemsFuel fuel inner [])
      else if c = '{' then
        (let inner := jsonSkipWs rest
         match inner with
         | '}' :: after => .ok (JsonValue.object [], after)
         | _ => parseObjectItemsFuel fuel inner [])
      else if c = '-' || c.isDigit then
        (parse_number (c :: rest)).map fun qr => (JsonValue.number qr.1, qr.2)
      else .error { message := "unexpected token in JSON".toList }

/-- Models the element loop of `Parser::parse_array`. -/
def parseArrayItemsFuel : Nat → Str → List JsonValue → Except JsonError (JsonValue × Str)
  | 0, _, _ => .error { message := "fuel exhausted".toList }
  | fuel + 1, s, acc =>
    match parseValueFuel fuel s with
    | .error e => .error e
    | .ok (v, rem) =>
      let rem := jsonSkipWs rem
      match rem with
      | ']' :: rest => .ok (JsonValue.array (acc ++ [v]), rest)
      | ',' :: rest => parseArrayItemsFuel fuel rest (acc ++ [v])
      | _ => .error { message := "unexpected token".toList }

/-- Models the member loop of `Parser::parse_object`. -/
def parseObjectItemsFuel : Nat → Str → List (Str × JsonValue) →
    Except JsonError (JsonValue × Str)
  | 0, _, _ => .error { message := "fuel exhausted".toList }
  | fuel + 1, s, acc =>
    let s := jsonSkipWs s
    match parse_string_full s with
    | .error e => .error e
    | .ok (key, rem) =>
      let rem := jsonSkipWs rem
      match rem with
      | ':' :: rem2 =>
        (match parseValueFuel fuel rem2 with
        | .error e => .error e
        | .ok (v, rem3) =>
          let acc := btreeInsert key v acc
          let rem3 := jsonSkipWs rem3
          match rem3 with
          | '}' :: rest => .ok (JsonValue.object acc, rest)
          | ',' :: rest => parseObjectItemsFuel fuel rest acc
          | _ => .error { message := "unexpected token".toList })
      | _ => .error { message := "unexpected token".toList }

end

/-- Models `parse_json`: parse one value, then require only whitespace to
remain. -/
def parse_json (input : Str) : Except JsonError JsonValue :=
  match parseValueFuel (2 * input.length + 8) input with
  | .error e => .error e
  | .ok (value, rem) =>
    if (jsonSkipWs rem).isEmpty then .ok value
    else .error { message := "trailing characters in JSON".toList }

/-! Conversation and judgment models, from `src/models.rs`. -/

/-- A declared tool call (`models.rs`). -/
structure ToolCall where
  id : Str
  kind : Str
  function_name : Option Str
  function_arguments : Option JsonValue
  custom_name : Option Str
  custom_input : Option Str

/-- A conversation message (`models.rs`). -/
structure ConversationMessage where
  role : Str
  content : Option JsonValue
  tool_call_id : Option Str
  tool_calls : List ToolCall
  function_name : Option Str

/-- A tool result wrapped as a speech act (`models.rs`). -/
structure ToolResultSpeechAct where
  tool_name : Str
  tool_call_id : Option Str
  arguments : List (Str × JsonValue)
  result_text : Str

/-- A resolved ground in the judgment's grounding trace (`models.rs`). -/
structure GroundRef where
  id : Str
  scope : Str
  source : Str
  status : Str
  confidence : Rat
  strength : Str
  semantic_id : Option Str
deriving DecidableEq, Repr

/-- One statement's rendering in the judgment (`models.rs`); the
`BTreeSet<String>` license is a sorted duplicate-free list. -/
structure StatementEvaluation where
  statement_id : Str
  statement : Str
  modality : Str
  license : List Str
  status : AdmissibilityStatus
  violated_axiom : Option Str
  explanation : Str
  grounding_trace : List GroundRef
  subject : Option Str
  predicate : Option Str
deriving DecidableEq, Repr

/-- The externally visible judgment (`models.rs`). -/
structure AdmissibilityJudgment where
  status : AdmissibilityStatus
  licensed : Bool
  can_retry : Bool
  statement_evaluations : List StatementEvaluation
  feedback_hint : Option Str
  violated_axioms : List Str
  explanation : Str
  num_statements : Nat
  num_acceptable : Nat
  grounds_accepted : Nat
  grounds_cited : Nat
deriving DecidableEq, Repr

/-- Per-statement validation outcome (`normative/models.rs`). -/
structure StatementValidationResult where
  statement : Statement
  status : EvaluationStatus
  license : License
  ground_set : GroundSet
  violated_axiom : Option Str
  explanation : Str
deriving DecidableEq, Repr

/-- Aggregate validation outcome (`normative/models.rs`). -/
structure ValidationResult where
  status : EvaluationStatus
  licensed : Bool
  can_retry : Bool
  feedback_hint : Option Str
  violated_axioms : List Str
  statement_results : List StatementValidationResult
  explanation : Str
  num_statements : Nat
  num_acceptable : Nat
  grounds_accepted : Nat
  grounds_cited : Nat
deriving DecidableEq, Repr

/-! Link building from grounds, from `src/citations.rs`. -/

/-- Models the `BTreeMap<String, Vec<&Ground>>` grouping loop of
`build_links_from_grounds`, by its lookup function: each ground is appended
to its citation key's entry. -/
def buildByKey (grounds : List Ground) : Str → List Ground :=
  grounds.foldl
    (fun m ground k => if k = ground.citation_key then m k ++ [ground] else m k)
    fun _ => []

/-- Models `build_links_from_grounds`. -/
def build_links_from_grounds (text : Str) (grounds : List Ground)
    (statement_id : Str) : LinkSet :=
  let by_key := buildByKey grounds
  { links :=
      List.flatten ((extract_citation_keys text).map fun key =>
        (by_key key).map fun ground =>
          { statement_id := statement_id, ground_id := ground.ground_id,
            role := ground.role,
            provenance :=
              { creator := ground.creator, evidence_type := ground.evidence_type,
                evidence_content :=
                  some (ground.evidence_content.getD ("citation_key=".toList ++ key)),
                signature := ground.signature } }) }

/-- Models `grounds_from_tool_call_refs`; the `BTreeMap` argument is an assoc
list sorted by key, iterated in order. -/
def grounds_from_tool_call_refs (tool_call_refs : List (Str × List Str)) : List Ground :=
  List.flatten (tool_call_refs.map fun kv =>
    kv.2.map fun ground_id =>
      { citation_key := kv.1, ground_id := ground_id, role := LinkRole.supports,
        creator := CreatorType.toolObserver, evidence_type := EvidenceType.observation,
        evidence_content := some ("tool_call_id=".toList ++ kv.1), signature := none })

/-! Knowledge state builder, from `src/normative/knowledge_builder.rs`. -/

/-- Models `KnowledgeStateBuilder::is_non_epistemic_tool`. -/
def is_non_epistemic_tool (tool_name : Str) : Bool :=
  let name := toLowerStr tool_name
  if name = "get_user_cognitive_context".toList then true
  else if containsSub ("personalization".toList) name
      || containsSub ("personal_context".toList) name then true
  else if containsSub ("memory".toList) name
      && containsAny name
        ["save".toList, "note".toList, "notes".toList, "load".toList,
         "consolidat".toList, "distill".toList, "state".toList] then true
  else if containsSub ("profile".toList) name
      && containsAny name
        ["save".toList, "set".toList, "update".toList, "load".toList,
         "consolidat".toList] then true
  else containsAny name
    ["remember".toList, "preference".toList, "preferences".toList,
     "setting".toList, "settings".toList]

/-- Models Rust `str::strip_suffix`. -/
def stripSuffixSub (s suffix : Str) : Option Str :=
  if List.isSuffixOf suffix s then some (s.take (s.length - suffix.length)) else none

/-- Models `extract_entity_id`: first a field ending in `_key`, then one
ending in `_id`, iterating the (sorted) object fields in order. -/
def extract_entity_id (map : List (Str × JsonValue)) : Option Str :=
  match map.findSome? (fun kv =>
      (stripSuffixSub kv.1 ("_key".toList)).bind fun pre =>
        kv.2.as_str.map fun v => pre ++ ['_'] ++ v) with
  | some r => some r
  | none =>
    map.findSome? fun kv =>
      (stripSuffixSub kv.1 ("_id".toList)).bind fun pre =>
        kv.2.as_str.map fun v => pre ++ ['_'] ++ v

/-- Models `SemanticExtract`. -/
inductive SemanticExtract
  | one (v : Str)
  | many (ids : List Str)

/-- Models `KnowledgeStateBuilder::extract_semantic_id`. -/
def extract_semantic_id (tool_result : ToolResultSpeechAct) : Option SemanticExtract :=
  if (trimStr tool_result.result_text).isEmpty then none
  else
    match parse_json tool_result.result_text with
    | .error _ => none
    | .ok data =>
      match data with
      | .array items =>
        let ids := items.filterMap fun item =>
          match item with
          | .object map => extract_entity_id map
          | _ => none
        if ids.isEmpty then none else some (SemanticExtract.many ids)
      | .object map => (extract_entity_id map).map SemanticExtract.one
      | _ => none

/-- UTF-8 encoding of one character (the hashed ids are hashed over bytes). -/
def utf8Bytes (c : Char) : List Nat :=
  let n := c.toNat
  if n < 128 then [n]
  else if n < 2048 then [192 + n / 64, 128 + n % 64]
  else if n < 65536 then [224 + n / 4096, 128 + (n / 64) % 64, 128 + n % 64]
  else [240 + n / 262144, 128 + (n / 4096) % 64, 128 + (n / 64) % 64, 128 + n % 64]

/-- One lowercase hex digit. -/
def hexDigitChar (n : Nat) : Char :=
  if n < 10 then Char.ofNat ('0'.toNat + n) else Char.ofNat ('a'.toNat + n - 10)

/-- A 64-bit value as 16 lowercase hex digits. -/
def toHex16 (n : Nat) : Str :=
  (List.range 16).map fun i => hexDigitChar ((n / 16 ^ (15 - i)) % 16)

/-- Models `stable_id_fragment`: 64-bit FNV-1a over the UTF-8 bytes, rendered
as 16 hex digits, first 10 kept.  The `u64` wrapping arithmetic is modelled
with `% 2 ^ 64`. -/
def stable_id_fragment (value : Str) : Str :=
  let bytes := (value.map utf8Bytes).flatten
  let hash := bytes.foldl
    (fun h b => ((h ^^^ b) * 1099511628211) % (2 ^ 64)) 1469598103934665603
  (toHex16 hash).take 10

/-- Decimal rendering of a `usize` index. -/
def natToStr (n : Nat) : Str := (Nat.repr n).toList

/-- Models `KnowledgeStateBuilder::tool_result_to_knowledge`. -/
def tool_result_to_knowledge (tool_result : ToolResultSpeechAct) :
    Option (List KnowledgeNode) :=
  let tool_name :=
    if tool_result.tool_name.isEmpty then "unknown".toList else tool_result.tool_name
  if is_non_epistemic_tool tool_name then none
  else
    let extracted := extract_semantic_id tool_result
    match extracted with
    | some (SemanticExtract.many ids) =>
      some (ids.enum.map fun iv =>
        let stable := stable_id_fragment (tool_name ++ [':'] ++ iv.2)
        { id := "tool_".toList ++ tool_name ++ "_item".toList ++ natToStr iv.1
            ++ ['_'] ++ stable,
          source := Source.observed, status := Status.confirmed, confidence := 1,
          scope := Scope.factual, strength := "strong".toList,
          semantic_id := some iv.2 })
    | _ =>
      let semantic_id := match extracted with
        | some (SemanticExtract.one v) => some v
        | _ => none
      let stable := stable_id_fragment
        (tool_name ++ [':'] ++ tool_result.result_text ++ [':']
          ++ tool_result.tool_call_id.getD [])
      some [{ id := "tool_".toList ++ tool_name ++ ['_'] ++ stable,
              source := Source.observed, status := Status.confirmed, confidence := 1,
              scope := Scope.factual, strength := "strong".toList,
              semantic_id := semantic_id }]

/-- Models `KnowledgeStateBuilder::build_with_references`. -/
def build_with_references (tool_results : List ToolResultSpeechAct) :
    List KnowledgeNode × List (Str × List Str) :=
  tool_results.foldl
    (fun acc result =>
      match tool_result_to_knowledge result with
      | none => acc
      | some produced =>
        let ids := produced.map fun n => n.semantic_id.getD n.id
        let refs := match result.tool_call_id with
          | some call_id =>
            if !ids.isEmpty then btreeInsert call_id ids acc.2 else acc.2
          | none => acc.2
        (acc.1 ++ produced, refs))
    ([], [])

/-- Models `KnowledgeStateBuilder::materialize_external_grounds`: add an
Observed/Confirmed/1.0/Factual/"strong" node for every ground id not already
present as a node id or semantic id (presence is checked against the input
nodes, as in the source). -/
def materialize_external_grounds (knowledge_nodes : List KnowledgeNode)
    (grounds : List Ground) : List KnowledgeNode :=
  if grounds.isEmpty then knowledge_nodes
  else
    let existing_ids := knowledge_nodes.map fun n => n.id
    let existing_semantic_ids := knowledge_nodes.filterMap fun n => n.semantic_id
    grounds.foldl
      (fun expanded ground =>
        if ground.ground_id ∈ existing_ids ∨ ground.ground_id ∈ existing_semantic_ids then
          expanded
        else
          expanded ++
            [{ id := ground.ground_id, source := Source.observed,
               status := Status.confirmed, confidence := 1, scope := Scope.factual,
               strength := "strong".toList, semantic_id := some ground.ground_id }])
      knowledge_nodes

/-! Evaluator and aggregator, from `src/evaluator.rs`. -/

/-- Top-level evaluation input (`evaluator.rs`). -/
structure EvaluateInput where
  agent_output : Option Str
  conversation : Option (List ConversationMessage)
  grounds : Option (List Ground)

/-- Evaluation error taxonomy (`evaluator.rs`). -/
inductive EvaluateError
  | missingInput
  | invalidConversation
  | lastMessageNotAssistant
  | lastAssistantContentNotString
  | agentOutputMismatch
  | invalidJson (msg : Str)
  | invalidMessage (msg : Str)
deriving DecidableEq, Repr

/-- Models `extract_text_content`: a plain string as-is; a list of typed parts
must be uniformly text or uniformly refusal parts, concatenated and trimmed;
anything else is an error. -/
def extract_text_content : Option JsonValue → Except EvaluateError Str
  | none => .ok []
  | some (JsonValue.string s) => .ok s
  | some (JsonValue.array parts) =>
    let refusal_parts := parts.filterMap fun part =>
      match part.as_object with
      | none => none
      | some obj =>
        let kind := ((btreeGet obj ("type".toList)).bind JsonValue.as_str).getD []
        if kind = "refusal".toList then
          (btreeGet obj ("refusal".toList)).bind JsonValue.as_str
        else none
    let text_parts := parts.filterMap fun part =>
      match part.as_object with
      | none => none
      | some obj =>
        let kind := ((btreeGet obj ("type".toList)).bind JsonValue.as_str).getD []
        if kind = "text".toList then
          (btreeGet obj ("text".toList)).bind JsonValue.as_str
        else none
    if !refusal_parts.isEmpty && !text_parts.isEmpty then
      .error (EvaluateError.invalidMessage
        ("Assistant content cannot mix text and refusal parts".toList))
    else if !refusal_parts.isEmpty then .ok (trimStr refusal_parts.flatten)
    else .ok (trimStr text_parts.flatten)
  | some _ => .error EvaluateError.lastAssistantContentNotString

/-- Models `parse_tool_args`. -/
def parse_tool_args : Option JsonValue → List (Str × JsonValue)
  | none => []
  | some (JsonValue.object map) => map
  | some (JsonValue.string s) =>
    (match parse_json s with
     | .ok (JsonValue.object map) => map
     | _ => [])
  | some _ => []

/-- The second pass of `extract_tool_results`: collect tool/function role
messages, resolving tool-role messages through the call-id map. -/
def extract_tool_results_go
    (tool_call_by_id : List (Str × (Str × List (Str × JsonValue)))) :
    List ConversationMessage → Except EvaluateError (List ToolResultSpeechAct)
  | [] => .ok []
  | message :: rest =>
    if message.role = "tool".toList then
      let tool_call_id := message.tool_call_id.getD []
      let found := (btreeGet tool_call_by_id tool_call_id).getD ("unknown".toList, [])
      match extract_text_content message.content with
      | .error e => .error e
      | .ok content =>
        (extract_tool_results_go tool_call_by_id rest).map fun out =>
          { tool_name := found.1, tool_call_id := some tool_call_id,
            arguments := found.2, result_text := content } :: out
    else if message.role = "function".toList then
      match message.function_name with
      | some name =>
        (match extract_text_content message.content with
        | .error e => .error e
        | .ok content =>
          (extract_tool_results_go tool_call_by_id rest).map fun out =>
            { tool_name := name, tool_call_id := none, arguments := [],
              result_text := content } :: out)
      | none => extract_tool_results_go tool_call_by_id rest
    else extract_tool_results_go tool_call_by_id rest

/-- Models `AdmissibilityEvaluator::extract_tool_results`. -/
def extract_tool_results (trajectory : List ConversationMessage) :
    Except EvaluateError (List ToolResultSpeechAct) :=
  let tool_call_by_id := trajectory.foldl
    (fun m message =>
      if message.role = "assistant".toList then
        message.tool_calls.foldl
          (fun m2 tool_call =>
            if tool_call.kind = "function".toList then
              btreeInsert tool_call.id
                (tool_call.function_name.getD ("unknown".toList),
                 parse_tool_args tool_call.function_arguments) m2
            else m2)
          m
      else m)
    []
  extract_tool_results_go tool_call_by_id trajectory

/-- The per-statement body of the `evaluate_core` loop: modality detection,
ground matching, license derivation (empty license for a descriptive
statement), axiom check. -/
def evaluate_statement (statement : Statement) (knowledge_nodes : List KnowledgeNode)
    (links : Option LinkSet) : StatementValidationResult :=
  let statement := ModalityDetector.detect_with_conditions statement
  let ground_set := GroundSetMatcher.match_nodes statement knowledge_nodes
  let license :=
    if statement.modality == some Modality.descriptive then
      { permitted_modalities := [] }
    else LicenseDeriver.derive ground_set links
  let result := AxiomChecker.check statement license ground_set ("task completion".toList)
  { statement := statement, status := result.status, license := license,
    ground_set := ground_set, violated_axiom := result.violated_axiom,
    explanation := result.explanation }

/-- Models `AdmissibilityEvaluator::aggregate`: the fixed precedence over
per-statement axiom results. -/
def aggregate (axiom_results : List AxiomCheckResult)
    (statement_results : List StatementValidationResult) : ValidationResult :=
  let violations := axiom_results.filterMap fun r => r.violated_axiom
  let agg :
      EvaluationStatus × Bool × Bool × Option Str × Str :=
    if axiom_results.any (fun r => r.status == EvaluationStatus.violatesNorm) then
      (EvaluationStatus.violatesNorm, false, true,
       some ("Your response violates normative axioms: ".toList
         ++ joinSep (", ".toList) violations
         ++ ". Please revise or refuse to answer if you lack required context.".toList),
       "Violated axioms: ".toList ++ debugStrList violations)
    else if axiom_results.any (fun r => r.status == EvaluationStatus.illFormed) then
      (EvaluationStatus.illFormed, false, true,
       some ("Your response is structurally ill-formed. Please rephrase with clear subject-predicate statements.".toList),
       "Structurally ill-formed statements detected".toList)
    else if axiom_results.any (fun r => r.status == EvaluationStatus.underdetermined) then
      (EvaluationStatus.underdetermined, false, false, none,
       "Validator has no jurisdiction to judge".toList)
    else if axiom_results.any (fun r => r.status == EvaluationStatus.unsupported) then
      (EvaluationStatus.unsupported, true, true,
       some ("Your statements lack required grounding. Consider asking for more context or using conditional phrasing.".toList),
       "Statements lack required grounding (A4)".toList)
    else if !axiom_results.isEmpty
        && axiom_results.all (fun r => r.status == EvaluationStatus.conditionallyAcceptable) then
      (EvaluationStatus.conditionallyAcceptable, true, false, none,
       "All statements are conditionally acceptable".toList)
    else if axiom_results.any (fun r => r.status == EvaluationStatus.conditionallyAcceptable) then
      (EvaluationStatus.conditionallyAcceptable, true, false, none,
       "Mix of conditional and acceptable statements".toList)
    else
      (EvaluationStatus.acceptable, true, false, none,
       "All statements are normatively acceptable".toList)
  { status := agg.1, licensed := agg.2.1, can_retry := agg.2.2.1,
    feedback_hint := agg.2.2.2.1, violated_axioms := violations,
    statement_results := statement_results, explanation := agg.2.2.2.2,
    num_statements := statement_results.length,
    num_acceptable := (axiom_results.filter fun r =>
      r.status == EvaluationStatus.acceptable
        || r.status == EvaluationStatus.conditionallyAcceptable).length,
    grounds_accepted := 0, grounds_cited := 0 }

/-- Models `AdmissibilityEvaluator::evaluate_core`. -/
def evaluate_core (agent_output : Str) (knowledge_nodes : List KnowledgeNode)
    (links : Option LinkSet) : ValidationResult :=
  if agent_output.isEmpty then
    { status := EvaluationStatus.underdetermined, licensed := false, can_retry := false,
      feedback_hint := none, violated_axioms := [], statement_results := [],
      explanation := "No content to validate".toList, num_statements := 0,
      num_acceptable := 0, grounds_accepted := 0, grounds_cited := 0 }
  else
    let statements := StatementExtractor.extract agent_output
    if statements.isEmpty then
      { status := EvaluationStatus.noNormativeContent, licensed := false,
        can_retry := false, feedback_hint := none, violated_axioms := [],
        statement_results := [],
        explanation :=
          "Protocol-only output (greetings/offers) - no normative claims to evaluate".toList,
        num_statements := 0, num_acceptable := 0, grounds_accepted := 0,
        grounds_cited := 0 }
    else
      let statement_results := statements.map fun s =>
        evaluate_statement s knowledge_nodes links
      let axiom_results := statement_results.map fun r =>
        ({ status := r.status, violated_axiom := r.violated_axiom,
           explanation := r.explanation } : AxiomCheckResult)
      aggregate axiom_results statement_results

/-- Models `map_status`. -/
def map_status : EvaluationStatus → AdmissibilityStatus
  | EvaluationStatus.acceptable => AdmissibilityStatus.acceptable
  | EvaluationStatus.conditionallyAcceptable => AdmissibilityStatus.conditionallyAcceptable
  | EvaluationStatus.violatesNorm => AdmissibilityStatus.violatesNorm
  | EvaluationStatus.unsupported => AdmissibilityStatus.unsupported
  | EvaluationStatus.illFormed => AdmissibilityStatus.illFormed
  | EvaluationStatus.underdetermined => AdmissibilityStatus.underdetermined
  | EvaluationStatus.noNormativeContent => AdmissibilityStatus.noNormativeContent
  | EvaluationStatus.wellFormed => AdmissibilityStatus.underdetermined

/-- Models `AdmissibilityEvaluator::to_judgment`. -/
def to_judgment (result : ValidationResult) : AdmissibilityJudgment :=
  let statement_evaluations := result.statement_results.map fun stmt =>
    { statement_id := stmt.statement.id, statement := stmt.statement.raw_text,
      modality := (stmt.statement.modality.map Modality.as_str).getD ("unknown".toList),
      license := stmt.license.permitted_modalities.foldl
        (fun s m => strSetInsert m.as_str s) [],
      status := map_status stmt.status, violated_axiom := stmt.violated_axiom,
      explanation := stmt.explanation,
      grounding_trace := stmt.ground_set.nodes.map fun k =>
        { id := k.id,
          scope := (match k.scope with
            | Scope.factual => "factual".toList
            | Scope.contextual => "contextual".toList),
          source := (match k.source with
            | Source.observed => "observed".toList
            | Source.explicit => "explicit".toList
            | Source.inferred => "inferred".toList
            | Source.repeated => "repeated".toList),
          status := (match k.status with
            | Status.hypothesis => "hypothesis".toList
            | Status.candidate => "candidate".toList
            | Status.confirmed => "confirmed".toList),
          confidence := k.confidence, strength := k.strength,
          semantic_id := k.semantic_id },
      subject := some stmt.statement.subject,
      predicate := some stmt.statement.predicate }
  let violated_axioms := result.statement_results.filterMap fun stmt => stmt.violated_axiom
  { status := map_status result.status, licensed := result.licensed,
    can_retry := result.can_retry, statement_evaluations := statement_evaluations,
    feedback_hint := result.feedback_hint, violated_axioms := violated_axioms,
    explanation := result.explanation, num_statements := result.num_statements,
    num_acceptable := result.num_acceptable,
    grounds_accepted := result.grounds_accepted, grounds_cited := result.grounds_cited }

/-- Models `AdmissibilityEvaluator::evaluate_message`. -/
def evaluate_message (agent_message : ConversationMessage)
    (trajectory : List ConversationMessage) (grounds : List Ground) :
    Except EvaluateError AdmissibilityJudgment :=
  match extract_tool_results trajectory with
  | .error e => .error e
  | .ok tool_results =>
    let built := build_with_references tool_results
    match extract_text_content agent_message.content with
    | .error e => .error e
    | .ok text =>
      let knowledge_nodes := materialize_external_grounds built.1 grounds
      let combined_grounds := grounds ++ grounds_from_tool_call_refs built.2
      let statement_id := "final_response".toList
      let links := build_links_from_grounds text combined_grounds statement_id
      let accepted_ground_ids := (combined_grounds.map fun g => g.ground_id).foldl
        (fun s i => strSetInsert i s) []
      let cited_ground_ids := (links.links.map fun l => l.ground_id).foldl
        (fun s i => strSetInsert i s) []
      let internal_result := evaluate_core text knowledge_nodes (some links)
      let internal_result :=
        { internal_result with
            grounds_accepted := accepted_ground_ids.length,
            grounds_cited := cited_ground_ids.length }
      .ok (to_judgment internal_result)

/-- Models the top-level `evaluate`. -/
def evaluate (input : EvaluateInput) : Except EvaluateError AdmissibilityJudgment :=
  if input.agent_output.isNone && input.conversation.isNone then
    .error EvaluateError.missingInput
  else
    match input.conversation with
    | some conversation =>
      if conversation.isEmpty then .error EvaluateError.invalidConversation
      else
        (match conversation.getLast? with
        | none => .error EvaluateError.invalidConversation
        | some last =>
          if last.role ≠ "assistant".toList then .error EvaluateError.lastMessageNotAssistant
          else
            match input.agent_output with
            | some expected_output =>
              (match extract_text_content last.content with
               | .error e => .error e
               | .ok actual =>
                 if actual ≠ expected_output then .error EvaluateError.agentOutputMismatch
                 else evaluate_message last conversation (input.grounds.getD []))
            | none => evaluate_message last conversation (input.grounds.getD []))
    | none =>
      let msg : ConversationMessage :=
        { role := "assistant".toList,
          content := some (JsonValue.string (input.agent_output.getD [])),
          tool_call_id := none, tool_calls := [], function_name := none }
      evaluate_message msg [msg] (input.grounds.getD [])

/-! Claim-support definitions. -/

/-- The input of claim C3: agent output `"We should deploy now."`, no
conversation, no grounds. -/
def c3_input : EvaluateInput :=
  { agent_output := some ("We should deploy now.".toList),
    conversation := none, grounds := none }

/-- Claim C4's stated rule order, following the spec's words: first the
`.`-terminated sentence, then the paragraph split on a blank line, then the
first line, then the first 500 characters. -/
def core_assertion_claim_order (text : Str) : Str :=
  match findSub (". ".toList) text with
  | some idx => trimStr (text.take (idx + 1))
  | none =>
    match splitOnceSub ("\n\n".toList) text with
    | some cr => trimStr cr.1
    | none =>
      match splitOnceSub ("\n".toList) text with
      | some cr => trimStr cr.1
      | none => trimStr (text.take 500)

/-- The amended rule order of claim C4, as the source applies it: first the
paragraph split on a blank line, then the `.`-terminated sentence, then the
first line, then the first 500 characters. -/
def core_assertion_amended_spec (text : Str) : Str :=
  if containsSub ("\n\n".toList) text then
    trimStr (text.take ((findSub ("\n\n".toList) text).getD 0))
  else if containsSub (". ".toList) text then
    trimStr (text.take ((findSub (". ".toList) text).getD 0 + 1))
  else if containsSub ("\n".toList) text then
    trimStr (text.take ((findSub ("\n".toList) text).getD 0))
  else trimStr (text.take 500)

/-- Witness node for claim C2: one strong Factual knowledge node. -/
def c2_strong_node : KnowledgeNode :=
  { id := "g1".toList, source := Source.observed, status := Status.confirmed,
    confidence := 1, scope := Scope.factual, strength := "strong".toList,
    semantic_id := none }

/-- Witness node for claim C2: one weak Factual knowledge node. -/
def c2_weak_node : KnowledgeNode :=
  { id := "g2".toList, source := Source.observed, status := Status.confirmed,
    confidence := 1, scope := Scope.factual, strength := "weak".toList,
    semantic_id := none }

/-- Witness statement for claim C9: raw text that detects as Descriptive. -/
def c9_stmt : Statement :=
  { id := "final_response".toList, subject := "agent".toList,
    predicate := "participation".toList,
    raw_text := "task a is blocked by task b.".toList,
    modality := none, conditions := [] }

/-- Witness statement for claim C10: raw text that detects as Conditional. -/
def c10_stmt : Statement :=
  { id := "final_response".toList, subject := "agent".toList,
    predicate := "participation".toList,
    raw_text := "if it rains, bring an umbrella.".toList,
    modality := none, conditions := [] }

/-- Witness message for claim C7: an assistant message whose text is `"A"`. -/
def c7_message : ConversationMessage :=
  { role := "assistant".toList, content := some (JsonValue.string ("A".toList)),
    tool_call_id := none, tool_calls := [], function_name := none }

/-- Witness input for claim C7: agent output `"B"` with that conversation. -/
def c7_input : EvaluateInput :=
  { agent_output := some ("B".toList), conversation := some [c7_message],
    grounds := none }

/-- Witness axiom result for claim C1: a ViolatesNorm/A5 result. -/
def c1_result : AxiomCheckResult :=
  { status := EvaluationStatus.violatesNorm, violated_axiom := some ("A5".toList),
    explanation := [] }

/-- Witness ground for claim C6: a ground whose citation key `J` is never
cited. -/
def c6_ground : Ground :=
  { citation_key := "J".toList, ground_id := "doc_1".toList,
    role := LinkRole.supports, creator := CreatorType.upstreamPipeline,
    evidence_type := EvidenceType.observation, evidence_content := none,
    signature := none }

/-- The statuses `AxiomChecker.check` can produce (each claim about
aggregation of per-statement axiom results ranges over these). -/
def checker_status_range (s : EvaluationStatus) : Prop :=
  s = EvaluationStatus.acceptable ∨ s = EvaluationStatus.conditionallyAcceptable
    ∨ s = EvaluationStatus.violatesNorm ∨ s = EvaluationStatus.unsupported
    ∨ s = EvaluationStatus.underdetermined

/-! Supporting lemmas. -/

theorem containsSub_eq_isSome_findSub (needle text : Str) :
    containsSub needle text = (findSub needle text).isSome := by
  induction text with
  | nil =>
    by_cases h : needle.isEmpty <;> simp [containsSub, findSub, h]
  | cons c rest ih =>
    by_cases h : needle.isPrefixOf (c :: rest) <;>
      simp [containsSub, findSub, h, ih]

theorem gss_go_no_scope (scope : Scope) (nodes : List KnowledgeNode) (found : Bool)
    (h : ∀ n ∈ nodes, n.scope ≠ scope) :
    get_scope_strength_go scope nodes found
      = if found then some ("weak".toList) else none := by
  induction nodes with
  | nil => rfl
  | cons n rest ih =>
    have hn : n.scope ≠ scope := h n (List.mem_cons_self n rest)
    simp only [get_scope_strength_go, if_neg hn]
    exact ih fun m hm => h m (List.mem_cons_of_mem n hm)

theorem gss_go_strong (scope : Scope) (nodes : List KnowledgeNode) (found : Bool)
    (h : ∃ n ∈ nodes, n.scope = scope ∧ n.strength = "strong".toList) :
    get_scope_strength_go scope nodes found = some ("strong".toList) := by
  induction nodes generalizing found with
  | nil => simp at h
  | cons n rest ih =>
    rcases h with ⟨m, hm, hsc, hst⟩
    rcases List.mem_cons.mp hm with rfl | hmem
    · simp [get_scope_strength_go, hsc, hst]
    · by_cases h1 : n.scope = scope
      · by_cases h2 : n.strength = "strong".toList
        · simp [get_scope_strength_go, h1, h2]
        · simp only [get_scope_strength_go, if_pos h1, if_neg h2]
          exact ih true ⟨m, hmem, hsc, hst⟩
      · simp only [get_scope_strength_go, if_neg h1]
        exact ih found ⟨m, hmem, hsc, hst⟩

theorem gss_go_weak_found (scope : Scope) (nodes : List KnowledgeNode)
    (h : ∀ n ∈ nodes, n.scope = scope → n.strength ≠ "strong".toList) :
    get_scope_strength_go scope nodes true = some ("weak".toList) := by
  induction nodes with
  | nil => rfl
  | cons n rest ih =>
    have ihr := ih fun m hm => h m (List.mem_cons_of_mem n hm)
    by_cases h1 : n.scope = scope
    · have h2 : n.strength ≠ "strong".toList := h n (List.mem_cons_self n rest) h1
      simp only [get_scope_strength_go, if_pos h1, if_neg h2]
      exact ihr
    · simp only [get_scope_strength_go, if_neg h1]
      exact ihr

theorem gss_go_weak (scope : Scope) (nodes : List KnowledgeNode)
    (hex : ∃ n ∈ nodes, n.scope = scope)
    (h : ∀ n ∈ nodes, n.scope = scope → n.strength ≠ "strong".toList) :
    get_scope_strength_go scope nodes false = some ("weak".toList) := by
  induction nodes with
  | nil => simp at hex
  | cons n rest ih =>
    by_cases h1 : n.scope = scope
    · have h2 : n.strength ≠ "strong".toList := h n (List.mem_cons_self n rest) h1
      simp only [get_scope_strength_go, if_pos h1, if_neg h2]
      exact gss_go_weak_found scope rest fun m hm => h m (List.mem_cons_of_mem n hm)
    · simp only [get_scope_strength_go, if_neg h1]
      rcases hex with ⟨m, hm, hsc⟩
      rcases List.mem_cons.mp hm with rfl | hmem
      · exact absurd hsc h1
      · exact ih ⟨m, hmem, hsc⟩ fun m2 hm2 => h m2 (List.mem_cons_of_mem n hm2)

theorem derive_conservative_no_factual (gs : GroundSet)
    (h : ∀ n ∈ gs.nodes, n.scope ≠ Scope.factual) :
    LicenseDeriver.derive_conservative gs = license_from [Modality.refusal] := by
  unfold LicenseDeriver.derive_conservative
  by_cases hnil : gs.nodes = []
  · simp [GroundSet.is_empty, hnil]
  · simp only [GroundSet.is_empty, List.isEmpty_iff, hnil, if_false]
    rw [show gs.get_scope_strength Scope.factual = none by
      rw [GroundSet.get_scope_strength, gss_go_no_scope Scope.factual gs.nodes false h]
      rfl]

theorem derive_conservative_strong (gs : GroundSet)
    (h : ∃ n ∈ gs.nodes, n.scope = Scope.factual ∧ n.strength = "strong".toList) :
    LicenseDeriver.derive_conservative gs
      = license_from [Modality.assertive, Modality.conditional, Modality.refusal] := by
  have hnil : gs.nodes ≠ [] := by
    rcases h with ⟨m, hm, _⟩
    exact List.ne_nil_of_mem hm
  unfold LicenseDeriver.derive_conservative
  simp only [GroundSet.is_empty, List.isEmpty_iff, hnil, if_false]
  rw [show gs.get_scope_strength Scope.factual = some ("strong".toList) by
    rw [GroundSet.get_scope_strength, gss_go_strong Scope.factual gs.nodes false h]]
  decide

theorem derive_conservative_weak (gs : GroundSet)
    (hex : ∃ n ∈ gs.nodes, n.scope = Scope.factual)
    (h : ∀ n ∈ gs.nodes, n.scope = Scope.factual → n.strength ≠ "strong".toList) :
    LicenseDeriver.derive_conservative gs
      = license_from [Modality.conditional, Modality.refusal] := by
  have hnil : gs.nodes ≠ [] := by
    rcases hex with ⟨m, hm, _⟩
    exact List.ne_nil_of_mem hm
  unfold LicenseDeriver.derive_conservative
  simp only [GroundSet.is_empty, List.isEmpty_iff, hnil, if_false]
  rw [show gs.get_scope_strength Scope.factual = some ("weak".toList) by
    rw [GroundSet.get_scope_strength, gss_go_weak Scope.factual gs.nodes hex h]]
  decide

theorem foldl_append_filter {α β : Type} (p : β → Prop) [DecidablePred p] (f : β → α)
    (gs : List β) (acc : List α) :
    gs.foldl (fun expanded g => if p g then expanded else expanded ++ [f g]) acc
      = acc ++ (gs.filter fun g => decide (¬ p g)).map f := by
  induction gs generalizing acc with
  | nil => simp
  | cons g rest ih =>
    by_cases h : p g
    · simp [List.foldl_cons, h, ih]
    · simp [List.foldl_cons, h, ih]

theorem check_descriptive (s : Statement) (license : License) (gs : GroundSet)
    (tg : Str) (h : s.modality = some Modality.descriptive) :
    AxiomChecker.check s license gs tg
      = if gs.has_factual then
          { status := EvaluationStatus.acceptable, violated_axiom := none,
            explanation := "Descriptive statement grounded in factual knowledge".toList }
        else
          { status := EvaluationStatus.unsupported, violated_axiom := some ("A4".toList),
            explanation := "Descriptive statement without factual grounding".toList } := by
  unfold AxiomChecker.check AxiomChecker.is_normative
  rw [h]
  simp

theorem has_factual_iff (gs : GroundSet) :
    gs.has_factual = true ↔ ∃ n ∈ gs.nodes, n.scope = Scope.factual := by
  simp [GroundSet.has_factual, List.any_eq_true]

theorem check_conditional (s : Statement) (license : License) (gs : GroundSet)
    (tg : Str) (h : s.modality = some Modality.conditional)
    (hc : s.conditions ≠ []) :
    (AxiomChecker.check s license gs tg).status = EvaluationStatus.conditionallyAcceptable
    ∧ AxiomCheckResult.violated_axiom (AxiomChecker.check s license gs tg) = none := by
  unfold AxiomChecker.check
  rw [h]
  by_cases hp : license.permits Modality.assertive
  · simp [hp]
  · simp [hp, hc]

theorem ite_unspecified_ne_nil (out : List Str) :
    (if out.isEmpty = true then ["unspecified".toList] else out) ≠ [] := by
  cases out <;> simp

theorem extract_conditions_ne_nil (t : Str) :
    ModalityDetector.extract_conditions t ≠ [] := by
  unfold ModalityDetector.extract_conditions
  exact ite_unspecified_ne_nil _

theorem detect_with_conditions_modality (stmt : Statement) :
    (ModalityDetector.detect_with_conditions stmt).modality
      = some (ModalityDetector.detect stmt.raw_text) := by
  by_cases h : ModalityDetector.detect stmt.raw_text = Modality.conditional <;>
    simp [ModalityDetector.detect_with_conditions, h]

theorem detect_with_conditions_conditional (stmt : Statement)
    (h : (ModalityDetector.detect_with_conditions stmt).modality
      = some Modality.conditional) :
    (ModalityDetector.detect_with_conditions stmt).conditions
      = ModalityDetector.extract_conditions stmt.raw_text := by
  have hm := detect_with_conditions_modality stmt
  rw [h] at hm
  have hd : ModalityDetector.detect stmt.raw_text = Modality.conditional :=
    (Option.some_inj.mp hm).symm
  simp [ModalityDetector.detect_with_conditions, hd]

theorem check_status_in_range (s : Statement) (license : License) (gs : GroundSet)
    (tg : Str) : checker_status_range (AxiomChecker.check s license gs tg).status := by
  unfold AxiomChecker.check checker_status_range
  split_ifs <;> try simp
  split <;> try simp
  split_ifs <;> simp

theorem status_any_true {rs : List AxiomCheckResult} {st : EvaluationStatus}
    (h : ∃ r ∈ rs, r.status = st) :
    (rs.any fun r => r.status == st) = true := by
  simpa [List.any_eq_true] using h

theorem status_any_false {rs : List AxiomCheckResult} {st : EvaluationStatus}
    (h : ∀ r ∈ rs, r.status ≠ st) :
    (rs.any fun r => r.status == st) = false := by
  rw [List.any_eq_false]
  intro r hr
  simpa using h r hr

theorem status_all_true {rs : List AxiomCheckResult} {st : EvaluationStatus}
    (h : ∀ r ∈ rs, r.status = st) :
    (rs.all fun r => r.status == st) = true := by
  rw [List.all_eq_true]
  intro r hr
  simpa using h r hr

theorem citation_scan_step_valid {cs : List Char} {cand : Str} {tail : List Char}
    (h : citation_scan_step cs = some (some cand, tail)) :
    is_valid_citation_key cand = true := by
  unfold citation_scan_step at h
  split at h
  · split at h
    · dsimp only at h
      split at h
      · rename_i hv
        injection h with h1
        injection h1 with hcand _
        injection hcand with hcand2
        exact hcand2 ▸ hv
      · injection h with h1
        injection h1 with hcand _
        exact absurd hcand.symm (by simp)
    · exact absurd h (by simp)
  · injection h with h1
    injection h1 with hcand _
    exact absurd hcand.symm (by simp)
  · exact absurd h (by simp)

theorem mem_dedup_first_not_seen {x : Str} :
    ∀ {ks seen : List Str}, x ∈ dedup_first_against ks seen → x ∉ seen := by
  intro ks
  induction ks with
  | nil => intro seen h; simp [dedup_first_against] at h
  | cons k rest ih =>
    intro seen h
    unfold dedup_first_against at h
    split at h
    · exact ih h
    · rename_i hk
      rcases List.mem_cons.mp h with rfl | hmem
      · simpa using hk
      · intro hx
        exact ih hmem (List.mem_append_left _ hx)

theorem dedup_first_nodup : ∀ (ks seen : List Str),
    (dedup_first_against ks seen).Nodup := by
  intro ks
  induction ks with
  | nil => intro seen; simp [dedup_first_against]
  | cons k rest ih =>
    intro seen
    unfold dedup_first_against
    split
    · exact ih seen
    · refine List.nodup_cons.mpr ⟨?_, ih (seen ++ [k])⟩
      intro hmem
      exact mem_dedup_first_not_seen hmem (List.mem_append_right _ (List.mem_singleton.mpr rfl))

theorem mem_dedup_first_mem {x : Str} :
    ∀ {ks seen : List Str}, x ∈ dedup_first_against ks seen → x ∈ ks := by
  intro ks
  induction ks with
  | nil => intro seen h; simp [dedup_first_against] at h
  | cons k rest ih =>
    intro seen h
    unfold dedup_first_against at h
    split at h
    · exact List.mem_cons_of_mem k (ih h)
    · rcases List.mem_cons.mp h with rfl | hmem
      · exact List.mem_cons_self x rest
      · exact List.mem_cons_of_mem k (ih hmem)

theorem extract_keys_go_eq_dedup : ∀ (fuel : Nat) (cs : List Char) (keys : List Str),
    extract_citation_keys_go fuel cs keys
      = keys ++ dedup_first_against (extract_citation_candidates fuel cs) keys := by
  intro fuel
  induction fuel with
  | zero => intro cs keys; simp [extract_citation_keys_go, extract_citation_candidates,
      dedup_first_against]
  | succ fuel ih =>
    intro cs keys
    rw [extract_citation_keys_go, extract_citation_candidates]
    cases h : citation_scan_step cs with
    | none => simp [dedup_first_against]
    | some step =>
      rcases step with ⟨mcand, tail⟩
      cases mcand with
      | none => simpa using ih tail keys
      | some cand =>
        by_cases hmem : keys.contains cand
        · simp only [hmem, Bool.not_true, if_false, dedup_first_against, if_pos hmem]
          exact ih tail keys
        · simp only [hmem, Bool.not_false, if_true, dedup_first_against,
            if_neg (by simpa using hmem)]
          rw [ih tail (keys ++ [cand])]
          simp

theorem mem_candidates_valid {k : Str} : ∀ {fuel : Nat} {cs : List Char},
    k ∈ extract_citation_candidates fuel cs → is_valid_citation_key k = true := by
  intro fuel
  induction fuel with
  | zero => intro cs h; simp [extract_citation_candidates] at h
  | succ fuel ih =>
    intro cs h
    rw [extract_citation_candidates] at h
    cases hs : citation_scan_step cs with
    | none => rw [hs] at h; simp at h
    | some step =>
      rw [hs] at h
      rcases step with ⟨mcand, tail⟩
      cases mcand with
      | none => exact ih h
      | some cand =>
        rcases List.mem_cons.mp h with rfl | hmem
        · exact citation_scan_step_valid hs
        · exact ih hmem

/-! Claims. -/

/-- Claim C2: in conservative mode, license derivation returns exactly
`{Refusal}` when the ground set is empty or has no Factual-scope node,
`{Assertive, Conditional, Refusal}` when some Factual node is "strong",
and `{Conditional, Refusal}` when Factual nodes exist but are all "weak";
in particular an empty ground set never permits Assertive or Conditional,
and adding one strong Factual node makes both permitted. -/
theorem c2_derive_conservative_cases (gs : GroundSet) :
    (gs.nodes = [] →
      LicenseDeriver.derive_conservative gs = license_from [Modality.refusal])
    ∧ ((∀ n ∈ gs.nodes, n.scope ≠ Scope.factual) →
      LicenseDeriver.derive_conservative gs = license_from [Modality.refusal])
    ∧ ((∃ n ∈ gs.nodes, n.scope = Scope.factual ∧ n.strength = "strong".toList) →
      LicenseDeriver.derive_conservative gs
        = license_from [Modality.assertive, Modality.conditional, Modality.refusal])
    ∧ ((∃ n ∈ gs.nodes, n.scope = Scope.factual) →
      (∀ n ∈ gs.nodes, n.scope = Scope.factual → n.strength = "weak".toList) →
      LicenseDeriver.derive_conservative gs
        = license_from [Modality.conditional, Modality.refusal])
    ∧ (gs.nodes = [] →
      Modality.assertive ∉ (LicenseDeriver.derive_conservative gs).permitted_modalities
      ∧ Modality.conditional ∉ (LicenseDeriver.derive_conservative gs).permitted_modalities)
    ∧ (∀ n : KnowledgeNode, n.scope = Scope.factual → n.strength = "strong".toList →
      Modality.assertive
        ∈ (LicenseDeriver.derive_conservative ⟨gs.nodes ++ [n]⟩).permitted_modalities
      ∧ Modality.conditional
        ∈ (LicenseDeriver.derive_conservative ⟨gs.nodes ++ [n]⟩).permitted_modalities) := by
  have hempty : gs.nodes = [] →
      LicenseDeriver.derive_conservative gs = license_from [Modality.refusal] := by
    intro h
    exact derive_conservative_no_factual gs (by simp [h])
  refine ⟨hempty, fun h => derive_conservative_no_factual gs h,
    fun h => derive_conservative_strong gs h, ?_, ?_, ?_⟩
  · intro hex hall
    refine derive_conservative_weak gs hex fun n hn hsc => ?_
    rw [hall n hn hsc]
    decide
  · intro h
    rw [hempty h]
    exact ⟨by decide, by decide⟩
  · intro n hsc hst
    have hs := derive_conservative_strong ⟨gs.nodes ++ [n]⟩
      ⟨n, by simp, hsc, hst⟩
    rw [hs]
    exact ⟨by decide, by decide⟩

/-- Claim C2 witness: the conservative license at concrete ground sets —
empty, one strong Factual node, one weak Factual node, and empty plus one
strong Factual node. -/
theorem c2_derive_conservative_witness :
    LicenseDeriver.derive_conservative ⟨[]⟩ = license_from [Modality.refusal]
    ∧ LicenseDeriver.derive_conservative ⟨[c2_strong_node]⟩
        = license_from [Modality.assertive, Modality.conditional, Modality.refusal]
    ∧ LicenseDeriver.derive_conservative ⟨[c2_weak_node]⟩
        = license_from [Modality.conditional, Modality.refusal]
    ∧ Modality.assertive ∈ (LicenseDeriver.derive_conservative
        ⟨([] : List KnowledgeNode) ++ [c2_strong_node]⟩).permitted_modalities
    ∧ Modality.conditional ∈ (LicenseDeriver.derive_conservative
        ⟨([] : List KnowledgeNode) ++ [c2_strong_node]⟩).permitted_modalities :=
  ⟨(c2_derive_conservative_cases ⟨[]⟩).1 rfl,
   (c2_derive_conservative_cases ⟨[c2_strong_node]⟩).2.2.1
     ⟨c2_strong_node, by decide, by decide, by decide⟩,
   (c2_derive_conservative_cases ⟨[c2_weak_node]⟩).2.2.2.1
     ⟨c2_weak_node, by decide, by decide⟩ (by decide),
   ((c2_derive_conservative_cases ⟨[]⟩).2.2.2.2.2 c2_strong_node (by decide) (by decide)).1,
   ((c2_derive_conservative_cases ⟨[]⟩).2.2.2.2.2 c2_strong_node (by decide) (by decide)).2⟩

/-- Claim C3: evaluating the input whose agent output is
`"We should deploy now."`, with no conversation and no grounds, succeeds and
yields a judgment with status violates_norm, violated axioms `["A5"]`,
licensed false, can_retry true, and zero grounds accepted and cited. -/
theorem c3_deploy_now_violates_norm :
    (evaluate c3_input).toOption.map (fun j =>
        (j.status, j.violated_axioms, j.licensed, j.can_retry,
         j.grounds_accepted, j.grounds_cited))
      = some (AdmissibilityStatus.violatesNorm, ["A5".toList], false, true, 0, 0) := by
  decide

/-- Claim C4, counterexample: on the text `"a. b\n\nc"` the source's
`extract_core_assertion` takes the blank-line paragraph `"a. b"`, while the
claim's rule order (sentence first) would take `"a."`. -/
theorem c4_counterexample :
    ModalityDetector.extract_core_assertion ("a. b\n\nc".toList) = "a. b".toList
    ∧ core_assertion_claim_order ("a. b\n\nc".toList) = "a.".toList
    ∧ ModalityDetector.extract_core_assertion ("a. b\n\nc".toList)
        ≠ core_assertion_claim_order ("a. b\n\nc".toList) := by
  refine ⟨by decide, by decide, by decide⟩

/-- Claim C4 as amended: the core assertion is chosen by trying rules in this
order, first match winning — the first paragraph split on a blank line;
otherwise the first `.`-terminated sentence; otherwise the first line;
otherwise the first 500 characters. -/
theorem c4_amended_core_assertion (text : Str) :
    ModalityDetector.extract_core_assertion text = core_assertion_amended_spec text := by
  unfold ModalityDetector.extract_core_assertion core_assertion_amended_spec splitOnceSub
  cases h1 : findSub ("\n\n".toList) text with
  | some i =>
    have hc1 : containsSub ['\n', '\n'] text = true := by
      have h := containsSub_eq_isSome_findSub ("\n\n".toList) text
      rw [h1] at h
      simpa using h
    simp [h1, hc1]
  | none =>
    have hc1 : containsSub ['\n', '\n'] text = false := by
      have h := containsSub_eq_isSome_findSub ("\n\n".toList) text
      rw [h1] at h
      simpa using h
    cases h2 : findSub (". ".toList) text with
    | some i =>
      have hc2 : containsSub ['.', ' '] text = true := by
        have h := containsSub_eq_isSome_findSub (". ".toList) text
        rw [h2] at h
        simpa using h
      simp [h1, h2, hc1, hc2]
    | none =>
      have hc2 : containsSub ['.', ' '] text = false := by
        have h := containsSub_eq_isSome_findSub (". ".toList) text
        rw [h2] at h
        simpa using h
      cases h3 : findSub ("\n".toList) text with
      | some i =>
        have hc3 : containsSub ['\n'] text = true := by
          have h := containsSub_eq_isSome_findSub ("\n".toList) text
          rw [h3] at h
          simpa using h
        simp [h1, h2, h3, hc1, hc2, hc3]
      | none =>
        have hc3 : containsSub ['\n'] text = false := by
          have h := containsSub_eq_isSome_findSub ("\n".toList) text
          rw [h3] at h
          simpa using h
        simp [h1, h2, h3, hc1, hc2, hc3]

/-- Claim C8: `materialize_external_grounds` returns the input nodes
unchanged, followed by one new Observed/Confirmed/1.0/Factual/"strong"
knowledge node (id and semantic id equal to the ground id) for every
supplied ground whose ground id is not already present among the input
nodes' ids or semantic ids; grounds with an already-present id add nothing
and no existing node is modified. -/
theorem c8_materialize_external_grounds (nodes : List KnowledgeNode)
    (grounds : List Ground) :
    materialize_external_grounds nodes grounds
      = nodes ++ (grounds.filter fun g =>
          decide (¬(g.ground_id ∈ nodes.map (fun n => n.id)
            ∨ g.ground_id ∈ nodes.filterMap (fun n => n.semantic_id)))).map
          (fun g =>
            { id := g.ground_id, source := Source.observed, status := Status.confirmed,
              confidence := 1, scope := Scope.factual, strength := "strong".toList,
              semantic_id := some g.ground_id }) := by
  unfold materialize_external_grounds
  by_cases hnil : grounds.isEmpty
  · rw [List.isEmpty_iff] at hnil
    simp [hnil]
  · simp only [hnil, Bool.false_eq_true, if_false]
    exact foldl_append_filter
      (fun g => g.ground_id ∈ nodes.map (fun n => n.id)
        ∨ g.ground_id ∈ nodes.filterMap (fun n => n.semantic_id))
      _ grounds nodes

theorem evaluate_statement_descriptive (stmt : Statement)
    (nodes : List KnowledgeNode) (links : Option LinkSet)
    (h : (ModalityDetector.detect_with_conditions stmt).modality
      = some Modality.descriptive) :
    evaluate_statement stmt nodes links
      = { statement := ModalityDetector.detect_with_conditions stmt,
          status := if (GroundSetMatcher.match_nodes
              (ModalityDetector.detect_with_conditions stmt) nodes).has_factual
            then EvaluationStatus.acceptable else EvaluationStatus.unsupported,
          license := { permitted_modalities := [] },
          ground_set := GroundSetMatcher.match_nodes
            (ModalityDetector.detect_with_conditions stmt) nodes,
          violated_axiom := if (GroundSetMatcher.match_nodes
              (ModalityDetector.detect_with_conditions stmt) nodes).has_factual
            then none else some ("A4".toList),
          explanation := if (GroundSetMatcher.match_nodes
              (ModalityDetector.detect_with_conditions stmt) nodes).has_factual
            then "Descriptive statement grounded in factual knowledge".toList
            else "Descriptive statement without factual grounding".toList } := by
  have hbeq : ((ModalityDetector.detect_with_conditions stmt).modality
      == some Modality.descriptive) = true := by
    rw [h]; rfl
  simp only [evaluate_statement, hbeq, if_true]
  rw [check_descriptive _ _ _ _ h]
  by_cases hf : (GroundSetMatcher.match_nodes
      (ModalityDetector.detect_with_conditions stmt) nodes).has_factual <;>
    simp [hf]

/-- Claim C9: a statement whose detected modality is Descriptive never has its
license derived — its license set is empty — and its per-statement status is
decided solely by the matched ground set: Acceptable when it contains a
Factual-scope node, else Unsupported with axiom A4. -/
theorem c9_descriptive_statement (stmt : Statement) (nodes : List KnowledgeNode)
    (links : Option LinkSet)
    (hdesc : (ModalityDetector.detect_with_conditions stmt).modality
      = some Modality.descriptive) :
    (evaluate_statement stmt nodes links).license.permitted_modalities = []
    ∧ (evaluate_statement stmt nodes links).ground_set
        = GroundSetMatcher.match_nodes (ModalityDetector.detect_with_conditions stmt) nodes
    ∧ ((∃ n ∈ (GroundSetMatcher.match_nodes
          (ModalityDetector.detect_with_conditions stmt) nodes).nodes,
          n.scope = Scope.factual) →
        (evaluate_statement stmt nodes links).status = EvaluationStatus.acceptable
        ∧ StatementValidationResult.violated_axiom (evaluate_statement stmt nodes links) = none)
    ∧ ((∀ n ∈ (GroundSetMatcher.match_nodes
          (ModalityDetector.detect_with_conditions stmt) nodes).nodes,
          n.scope ≠ Scope.factual) →
        (evaluate_statement stmt nodes links).status = EvaluationStatus.unsupported
        ∧ StatementValidationResult.violated_axiom (evaluate_statement stmt nodes links) = some ("A4".toList)) := by
  rw [evaluate_statement_descriptive stmt nodes links hdesc]
  refine ⟨rfl, rfl, ?_, ?_⟩
  · intro hex
    have hf := (has_factual_iff _).mpr hex
    simp [hf]
  · intro hall
    have hf : (GroundSetMatcher.match_nodes
        (ModalityDetector.detect_with_conditions stmt) nodes).has_factual = false := by
      rw [← Bool.not_eq_true, has_factual_iff]
      push_neg
      exact hall
    simp [hf]

/-- Claim C9 witness: `"task a is blocked by task b."` detects as Descriptive;
with no knowledge nodes its evaluation has an empty license and is
Unsupported with axiom A4. -/
theorem c9_descriptive_statement_witness :
    (ModalityDetector.detect_with_conditions c9_stmt).modality
      = some Modality.descriptive
    ∧ ((evaluate_statement c9_stmt [] none).license.permitted_modalities = []
      ∧ (evaluate_statement c9_stmt [] none).ground_set
          = GroundSetMatcher.match_nodes (ModalityDetector.detect_with_conditions c9_stmt) []
      ∧ ((∃ n ∈ (GroundSetMatcher.match_nodes
            (ModalityDetector.detect_with_conditions c9_stmt) []).nodes,
            n.scope = Scope.factual) →
          (evaluate_statement c9_stmt [] none).status = EvaluationStatus.acceptable
          ∧ StatementValidationResult.violated_axiom (evaluate_statement c9_stmt [] none) = none)
      ∧ ((∀ n ∈ (GroundSetMatcher.match_nodes
            (ModalityDetector.detect_with_conditions c9_stmt) []).nodes,
            n.scope ≠ Scope.factual) →
          (evaluate_statement c9_stmt [] none).status = EvaluationStatus.unsupported
          ∧ StatementValidationResult.violated_axiom (evaluate_statement c9_stmt [] none) = some ("A4".toList))) :=
  ⟨by decide, c9_descriptive_statement c9_stmt [] none (by decide)⟩

/-- Claim C10: a statement the pipeline classifies Conditional always carries
a non-empty condition list (condition extraction falls back to
`["unspecified"]`), so the axiom checker's Unsupported/A7 branch cannot fire
for it: for every license and ground set the check yields
ConditionallyAcceptable with no violated axiom. -/
theorem c10_conditional_statement (stmt : Statement) (license : License)
    (gs : GroundSet)
    (hcond : (ModalityDetector.detect_with_conditions stmt).modality
      = some Modality.conditional) :
    (ModalityDetector.detect_with_conditions stmt).conditions ≠ []
    ∧ (AxiomChecker.check (ModalityDetector.detect_with_conditions stmt) license gs
        ("task completion".toList)).status = EvaluationStatus.conditionallyAcceptable
    ∧ AxiomCheckResult.violated_axiom (AxiomChecker.check
        (ModalityDetector.detect_with_conditions stmt) license gs
        ("task completion".toList)) = none := by
  have hc := detect_with_conditions_conditional stmt hcond
  have hne : (ModalityDetector.detect_with_conditions stmt).conditions ≠ [] := by
    rw [hc]
    exact extract_conditions_ne_nil _
  exact ⟨hne, (check_conditional _ license gs _ hcond hne).1,
    (check_conditional _ license gs _ hcond hne).2⟩

/-- Claim C10 witness: `"if it rains, bring an umbrella."` detects as
Conditional; its conditions are non-empty and the check (here with an empty
license and ground set) is ConditionallyAcceptable with no axiom. -/
theorem c10_conditional_statement_witness :
    (ModalityDetector.detect_with_conditions c10_stmt).modality
      = some Modality.conditional
    ∧ ((ModalityDetector.detect_with_conditions c10_stmt).conditions ≠ []
      ∧ (AxiomChecker.check (ModalityDetector.detect_with_conditions c10_stmt)
          { permitted_modalities := [] } ⟨[]⟩ ("task completion".toList)).status
          = EvaluationStatus.conditionallyAcceptable
      ∧ AxiomCheckResult.violated_axiom (AxiomChecker.check
          (ModalityDetector.detect_with_conditions c10_stmt)
          { permitted_modalities := [] } ⟨[]⟩ ("task completion".toList))
          = none) :=
  ⟨by decide, c10_conditional_statement c10_stmt { permitted_modalities := [] } ⟨[]⟩ (by decide)⟩

/-- Claim C7: when both an agent output and a conversation are supplied and
the extracted text of the conversation's last (assistant) message differs
from the agent output, `evaluate` returns the AgentOutputMismatch error, so
no judgment is produced and neither input silently wins. -/
theorem c7_agent_output_mismatch (out actual : Str)
    (conversation : List ConversationMessage) (last : ConversationMessage)
    (grounds : Option (List Ground))
    (hlast : conversation.getLast? = some last)
    (hrole : last.role = "assistant".toList)
    (hext : extract_text_content last.content = Except.ok actual)
    (hne : actual ≠ out) :
    evaluate { agent_output := some out, conversation := some conversation,
               grounds := grounds }
      = Except.error EvaluateError.agentOutputMismatch := by
  have hnonempty : conversation.isEmpty = false := by
    rcases conversation with _ | ⟨c, rest⟩
    · simp at hlast
    · rfl
  simp [evaluate, hnonempty, hlast, hrole, hext, hne]

/-- Claim C7 witness: a one-message assistant conversation saying `"A"`
together with agent output `"B"` is rejected with AgentOutputMismatch. -/
theorem c7_agent_output_mismatch_witness :
    ([c7_message] : List ConversationMessage).getLast? = some c7_message
    ∧ c7_message.role = "assistant".toList
    ∧ extract_text_content c7_message.content = Except.ok ("A".toList)
    ∧ ("A".toList : Str) ≠ "B".toList
    ∧ evaluate c7_input = Except.error EvaluateError.agentOutputMismatch :=
  ⟨rfl, rfl, rfl, by decide,
   c7_agent_output_mismatch ("B".toList) ("A".toList) [c7_message] c7_message none
     rfl rfl rfl (by decide)⟩

/-- Claim C1: aggregation over per-statement axiom results follows the fixed
precedence, first matching rule winning — any ViolatesNorm makes the overall
status ViolatesNorm (licensed false, can_retry true); else any IllFormed
gives IllFormed (false, true); else any Underdetermined gives
Underdetermined (false, false); else any Unsupported gives Unsupported
(true, true); else all ConditionallyAcceptable gives ConditionallyAcceptable
(true, false); else any ConditionallyAcceptable mixed with Acceptable gives
ConditionallyAcceptable (true, false); else Acceptable (true, false). -/
theorem c1_aggregate_precedence (axiom_results : List AxiomCheckResult)
    (statement_results : List StatementValidationResult)
    (hne : axiom_results ≠ [])
    (hrange : ∀ r ∈ axiom_results, checker_status_range r.status) :
    ((∃ r ∈ axiom_results, r.status = EvaluationStatus.violatesNorm) →
      ((aggregate axiom_results statement_results).status,
       (aggregate axiom_results statement_results).licensed,
       (aggregate axiom_results statement_results).can_retry)
        = (EvaluationStatus.violatesNorm, false, true))
    ∧ ((∀ r ∈ axiom_results, r.status ≠ EvaluationStatus.violatesNorm) →
      (∃ r ∈ axiom_results, r.status = EvaluationStatus.illFormed) →
      ((aggregate axiom_results statement_results).status,
       (aggregate axiom_results statement_results).licensed,
       (aggregate axiom_results statement_results).can_retry)
        = (EvaluationStatus.illFormed, false, true))
    ∧ ((∀ r ∈ axiom_results, r.status ≠ EvaluationStatus.violatesNorm) →
      (∀ r ∈ axiom_results, r.status ≠ EvaluationStatus.illFormed) →
      (∃ r ∈ axiom_results, r.status = EvaluationStatus.underdetermined) →
      ((aggregate axiom_results statement_results).status,
       (aggregate axiom_results statement_results).licensed,
       (aggregate axiom_results statement_results).can_retry)
        = (EvaluationStatus.underdetermined, false, false))
    ∧ ((∀ r ∈ axiom_results, r.status ≠ EvaluationStatus.violatesNorm) →
      (∀ r ∈ axiom_results, r.status ≠ EvaluationStatus.illFormed) →
      (∀ r ∈ axiom_results, r.status ≠ EvaluationStatus.underdetermined) →
      (∃ r ∈ axiom_results, r.status = EvaluationStatus.unsupported) →
      ((aggregate axiom_results statement_results).status,
       (aggregate axiom_results statement_results).licensed,
       (aggregate axiom_results statement_results).can_retry)
        = (EvaluationStatus.unsupported, true, true))
    ∧ ((∀ r ∈ axiom_results, r.status ≠ EvaluationStatus.violatesNorm) →
      (∀ r ∈ axiom_results, r.status ≠ EvaluationStatus.illFormed) →
      (∀ r ∈ axiom_results, r.status ≠ EvaluationStatus.underdetermined) →
      (∀ r ∈ axiom_results, r.status ≠ EvaluationStatus.unsupported) →
      (∀ r ∈ axiom_results, r.status = EvaluationStatus.conditionallyAcceptable) →
      ((aggregate axiom_results statement_results).status,
       (aggregate axiom_results statement_results).licensed,
       (aggregate axiom_results statement_results).can_retry)
        = (EvaluationStatus.conditionallyAcceptable, true, false))
    ∧ ((∀ r ∈ axiom_results, r.status ≠ EvaluationStatus.violatesNorm) →
      (∀ r ∈ axiom_results, r.status ≠ EvaluationStatus.illFormed) →
      (∀ r ∈ axiom_results, r.status ≠ EvaluationStatus.underdetermined) →
      (∀ r ∈ axiom_results, r.status ≠ EvaluationStatus.unsupported) →
      (∃ r ∈ axiom_results, r.status = EvaluationStatus.conditionallyAcceptable) →
      (∃ r ∈ axiom_results, r.status = EvaluationStatus.acceptable) →
      ((aggregate axiom_results statement_results).status,
       (aggregate axiom_results statement_results).licensed,
       (aggregate axiom_results statement_results).can_retry)
        = (EvaluationStatus.conditionallyAcceptable, true, false))
    ∧ ((∀ r ∈ axiom_results, r.status ≠ EvaluationStatus.violatesNorm) →
      (∀ r ∈ axiom_results, r.status ≠ EvaluationStatus.illFormed) →
      (∀ r ∈ axiom_results, r.status ≠ EvaluationStatus.underdetermined) →
      (∀ r ∈ axiom_results, r.status ≠ EvaluationStatus.unsupported) →
      ¬(∀ r ∈ axiom_results, r.status = EvaluationStatus.conditionallyAcceptable) →
      ¬((∃ r ∈ axiom_results, r.status = EvaluationStatus.conditionallyAcceptable)
        ∧ (∃ r ∈ axiom_results, r.status = EvaluationStatus.acceptable)) →
      ((aggregate axiom_results statement_results).status,
       (aggregate axiom_results statement_results).licensed,
       (aggregate axiom_results statement_results).can_retry)
        = (EvaluationStatus.acceptable, true, false)) := by
  refine ⟨?_, ?_, ?_, ?_, ?_, ?_, ?_⟩
  · intro hVN
    simp [aggregate, status_any_true hVN]
  · intro hnVN hIF
    simp [aggregate, status_any_false hnVN, status_any_true hIF]
  · intro hnVN hnIF hUD
    simp [aggregate, status_any_false hnVN, status_any_false hnIF, status_any_true hUD]
  · intro hnVN hnIF hnUD hUS
    simp [aggregate, status_any_false hnVN, status_any_false hnIF,
      status_any_false hnUD, status_any_true hUS]
  · intro hnVN hnIF hnUD hnUS hall
    simp [aggregate, status_any_false hnVN, status_any_false hnIF,
      status_any_false hnUD, status_any_false hnUS, status_all_true hall, hne]
  · intro hnVN hnIF hnUD hnUS hCA _hAcc
    by_cases hall : (axiom_results.all fun r =>
        r.status == EvaluationStatus.conditionallyAcceptable) = true
    · simp [aggregate, status_any_false hnVN, status_any_false hnIF,
        status_any_false hnUD, status_any_false hnUS, hall, hne]
    · simp [aggregate, status_any_false hnVN, status_any_false hnIF,
        status_any_false hnUD, status_any_false hnUS, hall, status_any_true hCA]
  · intro hnVN hnIF hnUD hnUS hnall hnmix
    have hnCA : ∀ r ∈ axiom_results, r.status ≠ EvaluationStatus.conditionallyAcceptable := by
      intro r hr hCA
      refine hnmix ⟨⟨r, hr, hCA⟩, ?_⟩
      rw [not_forall] at hnall
      rcases hnall with ⟨r2, h2⟩
      rw [Classical.not_imp] at h2
      rcases h2 with ⟨hr2, hne2⟩
      rcases hrange r2 hr2 with hA | hC | hV | hU | hD
      · exact ⟨r2, hr2, hA⟩
      · exact absurd hC hne2
      · exact absurd hV (hnVN r2 hr2)
      · exact absurd hU (hnUS r2 hr2)
      · exact absurd hD (hnUD r2 hr2)
    have hallfalse : (axiom_results.all fun r =>
        r.status == EvaluationStatus.conditionallyAcceptable) = false := by
      rcases axiom_results with _ | ⟨r, rest⟩
      · exact absurd rfl hne
      · have := hnCA r (List.mem_cons_self r rest)
        simp [List.all_cons]
        intro h
        exact absurd h this
    simp [aggregate, status_any_false hnVN, status_any_false hnIF,
      status_any_false hnUD, status_any_false hnUS, hallfalse,
      status_any_false hnCA]

/-- Claim C1 witness: one ViolatesNorm axiom result aggregates to
ViolatesNorm with licensed false and can_retry true. -/
theorem c1_aggregate_precedence_witness :
    ([c1_result] : List AxiomCheckResult) ≠ []
    ∧ ((aggregate [c1_result] []).status, (aggregate [c1_result] []).licensed,
       (aggregate [c1_result] []).can_retry)
      = (EvaluationStatus.violatesNorm, false, true) :=
  ⟨by decide,
   (c1_aggregate_precedence [c1_result] [] (by decide)
     (by
       intro r hr
       rw [List.mem_singleton] at hr
       subst hr
       right; right; left; rfl)).1
     ⟨c1_result, List.mem_singleton.mpr rfl, rfl⟩⟩

/-- Claim C5: `extract_citation_keys` returns the distinct valid citation
keys in first-occurrence order — it equals the full candidate scan with
later repeats dropped; every returned key is valid (starts with an ASCII
letter, rest alphanumeric, `_` or `-`); the result has no duplicates; and
`"[@K1] ... [@K1] ... [@K2]"` yields `["K1", "K2"]`. -/
theorem c5_extract_citation_keys (text : Str) :
    extract_citation_keys text
      = dedup_first_against (extract_citation_candidates (text.length + 1) text) []
    ∧ (∀ k ∈ extract_citation_keys text, is_valid_citation_key k = true)
    ∧ (extract_citation_keys text).Nodup
    ∧ extract_citation_keys ("[@K1] ... [@K1] ... [@K2]".toList)
        = ["K1".toList, "K2".toList] := by
  have heq : extract_citation_keys text
      = dedup_first_against (extract_citation_candidates (text.length + 1) text) [] := by
    unfold extract_citation_keys
    by_cases hnil : text.isEmpty
    · rw [List.isEmpty_iff] at hnil
      subst hnil
      simp [extract_citation_candidates, citation_scan_step, dedup_first_against]
    · simp only [hnil, Bool.false_eq_true, if_false]
      simpa using extract_keys_go_eq_dedup (text.length + 1) text []
  refine ⟨heq, ?_, ?_, by decide⟩
  · intro k hk
    rw [heq] at hk
    exact mem_candidates_valid (mem_dedup_first_mem hk)
  · rw [heq]
    exact dedup_first_nodup _ []

theorem buildByKey_fold (grounds : List Ground) (m : Str → List Ground) (k : Str) :
    (grounds.foldl (fun m2 ground k2 =>
        if k2 = ground.citation_key then m2 k2 ++ [ground] else m2 k2) m) k
      = m k ++ (grounds.filter fun g => g.citation_key == k) := by
  induction grounds generalizing m with
  | nil => simp
  | cons g rest ih =>
    rw [List.foldl_cons, ih]
    by_cases h : k = g.citation_key
    · simp [List.filter_cons, h.symm]
    · have h2 : ¬(g.citation_key = k) := fun hh => h hh.symm
      simp [List.filter_cons, h, h2]

/-- Claim C6: `build_links_from_grounds` emits, for each citation key
extracted from the text in extraction order, exactly one link per ground
sharing that key — carrying the ground's role and provenance, with evidence
text defaulting to `"citation_key=<key>"` when the ground carries none —
and an extracted key matching no ground produces no link (in particular,
when no ground's key is cited the link set is empty, not an error). -/
theorem c6_build_links_from_grounds (text : Str) (grounds : List Ground)
    (statement_id : Str) :
    (build_links_from_grounds text grounds statement_id).links
      = List.flatten ((extract_citation_keys text).map fun key =>
          (grounds.filter fun g => g.citation_key == key).map fun ground =>
            { statement_id := statement_id, ground_id := ground.ground_id,
              role := ground.role,
              provenance :=
                { creator := ground.creator, evidence_type := ground.evidence_type,
                  evidence_content := some (ground.evidence_content.getD
                    ("citation_key=".toList ++ key)),
                  signature := ground.signature } })
    ∧ ((∀ g ∈ grounds, g.citation_key ∉ extract_citation_keys text) →
        (build_links_from_grounds text grounds statement_id).links = []) := by
  have hbk : ∀ key, buildByKey grounds key
      = grounds.filter fun g => g.citation_key == key := by
    intro key
    unfold buildByKey
    simpa using buildByKey_fold grounds (fun _ => []) key
  have h1 : (build_links_from_grounds text grounds statement_id).links
      = List.flatten ((extract_citation_keys text).map fun key =>
          (grounds.filter fun g => g.citation_key == key).map fun ground =>
            { statement_id := statement_id, ground_id := ground.ground_id,
              role := ground.role,
              provenance :=
                { creator := ground.creator, evidence_type := ground.evidence_type,
                  evidence_content := some (ground.evidence_content.getD
                    ("citation_key=".toList ++ key)),
                  signature := ground.signature } }) := by
    unfold build_links_from_grounds
    refine congrArg List.flatten (List.map_congr_left fun key _ => ?_)
    rw [hbk key]
  refine ⟨h1, fun h => ?_⟩
  rw [h1]
  have hempty : ∀ key ∈ extract_citation_keys text,
      (grounds.filter fun g => g.citation_key == key) = [] := by
    intro key hkey
    rw [List.filter_eq_nil_iff]
    intro g hg
    simp only [beq_iff_eq]
    intro hgk
    exact h g hg (hgk ▸ hkey)
  rw [List.flatten_eq_nil_iff]
  intro l hl
  rcases List.mem_map.mp hl with ⟨key, hkey, rfl⟩
  rw [hempty key hkey]
  rfl

/-- Claim C6 witness: a text citing only the unknown key `K` against one
ground whose key is `J` produces no links. -/
theorem c6_build_links_from_grounds_witness :
    (∀ g ∈ [c6_ground], g.citation_key ∉ extract_citation_keys ("see [@K].".toList))
    ∧ (build_links_from_grounds ("see [@K].".toList) [c6_ground]
        ("final_response".toList)).links = [] :=
  ⟨by decide,
   (c6_build_links_from_grounds ("see [@K].".toList) [c6_ground]
     ("final_response".toList)).2 (by decide)⟩

end Normcore
